import Mathlib

/-!
Verification of the Oi360 SOA reconciliation engine
(src/app/oi360/oi_360_soa_reco_pyqt_final.py).

The Python program reconciles a statement (SOA) table against up to four
reference tables.  This file gives a shallow embedding of the data
transformation core: the match-key normalizer `clean_match_value`
(lines 410-419), the age bucketing block (lines 377-407), the per-slot
left-join loop of `RecoWorker.run` (lines 421-461), the date-column cleanup
(lines 467-477) and the amount-mismatch block (lines 497-582).

Modelling conventions:
* pandas cells are `Cell` (missing / string / integer); `str()` of a missing
  cell is the string nan, as `astype(str)` renders NaN in pandas;
* a DataFrame is a `Table`: a header list plus row-major rows; `pd.merge`
  with how=left is `leftJoin` (suffixing of duplicate non-key column names
  is not modelled; theorems that need it assume non-overlapping names);
* machine floats of the mismatch block are modelled by exact rationals, with
  two-decimal formatting by round-half-even (the decimal reading of the
  Python float formatting; ties that binary floats place slightly off the
  midpoint, and exotic float spellings such as exponents, inf and nan, are
  not modelled);
* exceptions raised by library calls are modelled by `Option`/`Except`
  results; the structural failure of `pd.to_datetime` (whose trigger lies
  outside the embedded string data) is an explicit input `dateRaises`, and
  the per-cell permissive date parser of pandas is an input `dateParse`;
* Python `str.isdigit` / `str.strip` are modelled on ASCII digits and
  whitespace;
* the worksheet highlight coordinates are recorded as logical
  (rowIndex, columnIndex) pairs; the Excel writer of the source adds one to
  the row for the header line.
-/

/-! ## Key normalizer: `clean_match_value` (source lines 410-419) -/

/-- The apostrophe character, written via its code point. -/
def quoteChar : Char := Char.ofNat 39

/-- Whitespace test used by the model of Python `str.strip`. -/
def isWS (c : Char) : Bool := c.isWhitespace

/-- Model of Python `str.strip()`: drop whitespace from both ends. -/
def trimChars (l : List Char) : List Char :=
  ((l.dropWhile isWS).reverse.dropWhile isWS).reverse

/-- Model of the conditional removal of one leading apostrophe
(source line 413-414). -/
def stripQuoteChars : List Char → List Char
  | [] => []
  | c :: t => if c = quoteChar then t else c :: t

/-- Model of Python `str.isdigit()`: nonempty and all digits. -/
def pyIsdigit (l : List Char) : Bool := !l.isEmpty && l.all Char.isDigit

/-- Model of stripping leading zero characters (source line 418). -/
def lstrip0 (l : List Char) : List Char := l.dropWhile (· = '0')

/-- Character-list core of `clean_match_value` (source lines 410-419):
trim, remove one leading apostrophe, and strip leading zeros from
digit strings (an all-zero string becomes the single digit zero). -/
def cleanChars (l : List Char) : List Char :=
  let t := trimChars l
  let u := stripQuoteChars t
  if pyIsdigit u || (!u.isEmpty && pyIsdigit (lstrip0 u)) then
    (if (lstrip0 u).isEmpty then ['0'] else lstrip0 u)
  else u

/-- `clean_match_value` of the source, on strings. -/
def clean_match_value (s : String) : String := String.mk (cleanChars s.data)

/-- Decidable form of: the normalized string does not begin with an
apostrophe or a whitespace character (the inputs on which the normalizer
is idempotent). -/
def headOkb (l : List Char) : Bool :=
  match l with
  | [] => true
  | c :: _ => !(c = quoteChar) && !(isWS c)

/-! ## Age bucketing (source lines 380-398) -/

/-- The `bucket` function defined inside `RecoWorker.run` (lines 388-395).
`none` models a NaN age. -/
def bucket : Option Int → String
  | none => "Unknown"
  | some d =>
    if d ≤ 15 then "0-15"
    else if d ≤ 30 then "16-30"
    else if d ≤ 60 then "31-60"
    else if d ≤ 90 then "61-90"
    else if d ≤ 120 then "91-120"
    else "121+"

/-- Day number of a civil date (proleptic Gregorian), the standard
days-from-civil algorithm; models the day arithmetic of pandas timestamps.
Day zero is 1970-01-01. -/
def daysFromCivil (y m d : Int) : Int :=
  let y1 : Int := if m ≤ 2 then y - 1 else y
  let era : Int := (if 0 ≤ y1 then y1 else y1 - 399) / 400
  let yoe : Int := y1 - era * 400
  let mp : Int := (m + 9) % 12
  let doy : Int := (153 * mp + 2) / 5 + d - 1
  let doe : Int := yoe * 365 + yoe / 4 - yoe / 100 + doy
  era * 146097 + doe - 719468

/-! ## Cells and tables -/

/-- A pandas cell: missing (NaN/NaT/None), a string, or an integral number
(the age column holds whole-day counts). -/
inductive Cell where
  | missing
  | str (s : String)
  | int (i : Int)
deriving DecidableEq, Repr

/-- Python `str()` of a cell, as `astype(str)` renders it. -/
def cellToStr : Cell → String
  | .missing => "nan"
  | .str s => s
  | .int i => toString i

/-- `pd.notna` on a cell. -/
def cellNotna : Cell → Bool
  | .missing => false
  | _ => true

/-- Join-key equality of cells: NaN never equals anything (pandas merge
drops NaN keys); strings and numbers never compare equal across kinds. -/
def cellEq : Cell → Cell → Bool
  | .str a, .str b => a == b
  | .int a, .int b => a == b
  | _, _ => false

/-- A DataFrame: ordered named columns, row-major cells. -/
structure Table where
  header : List String
  rows : List (List Cell)
deriving DecidableEq, Repr

/-- Position of a column label (first occurrence), `df.columns.get_loc`. -/
def Table.colIdx (t : Table) (c : String) : Option Nat :=
  t.header.findIdx? (fun h => h == c)

/-- Membership of a label in the columns. -/
def Table.hasCol (t : Table) (c : String) : Bool := (t.colIdx c).isSome

/-- The cells of the named column, `df[c]`, when the label exists. -/
def Table.col (t : Table) (c : String) : Option (List Cell) :=
  (t.colIdx c).map (fun i => t.rows.map (fun r => r.getD i Cell.missing))

/-- Column assignment `df[c] = vs`: replaces the column in place when the
label exists, otherwise appends a new last column (pandas semantics). -/
def Table.setCol (t : Table) (c : String) (vs : List Cell) : Table :=
  match t.colIdx c with
  | some i => { header := t.header, rows := List.zipWith (fun r v => r.set i v) t.rows vs }
  | none => { header := t.header ++ [c], rows := List.zipWith (fun r v => r ++ [v]) t.rows vs }

/-- `df.drop(columns=[c])` (ignoring a missing label, used only guarded). -/
def Table.dropCol (t : Table) (c : String) : Table :=
  match t.colIdx c with
  | some i => { header := t.header.eraseIdx i, rows := t.rows.map (fun r => r.eraseIdx i) }
  | none => t

/-- `df.insert(0, c, df.pop(c))`: move an existing column to the front. -/
def Table.popInsertFront (t : Table) (c : String) : Table :=
  match t.colIdx c with
  | some i =>
    { header := c :: t.header.eraseIdx i,
      rows := t.rows.map (fun r => r.getD i Cell.missing :: r.eraseIdx i) }
  | none => t

/-- `df[[c1, ..., cn]]`: column projection; `none` models the KeyError
raised when a label is missing. -/
def Table.select (t : Table) (cols : List String) : Option Table :=
  if cols.all (fun c => t.hasCol c) then
    some { header := cols,
           rows := t.rows.map (fun r =>
             cols.map (fun c => r.getD ((t.colIdx c).getD 0) Cell.missing)) }
  else none

/-- Apply a function to every cell of the named column in place. -/
def Table.mapCol (t : Table) (c : String) (f : Cell → Cell) : Table :=
  match t.colIdx c with
  | some i =>
    { header := t.header,
      rows := t.rows.map (fun r => r.set i (f (r.getD i Cell.missing))) }
  | none => t

/-- `pd.merge(l, r, left_on=lk, right_on=rk, how=left)` (source line 443):
every left row is kept in order; each match in the right table produces an
output row (fan-out); an unmatched left row is padded with missing cells. -/
def leftJoin (l r : Table) (lk rk : String) : Table :=
  let li := (l.colIdx lk).getD 0
  let ri := (r.colIdx rk).getD 0
  { header := l.header ++ r.header,
    rows := l.rows.flatMap (fun row =>
      let key := row.getD li Cell.missing
      let ms := r.rows.filter (fun rr => cellEq key (rr.getD ri Cell.missing))
      if ms.isEmpty then [row ++ List.replicate r.header.length Cell.missing]
      else ms.map (fun rr => row ++ rr)) }

/-! ## Reconciliation state and the slot loop (source lines 421-461) -/

/-- One reference configuration: `(ref_df, match_col, return_cols, label)`
(the label component of the source tuple is unused by the engine). -/
structure RefConfig where
  table : Table
  matchCol : String
  returnCols : List String
deriving DecidableEq, Repr

/-- The full input of `RecoWorker.run`, plus the environmental data the
source reads from the clock and from pandas date parsing. -/
structure RunInput where
  soa : Table
  soaMatch : String
  dateCol : Option String
  amountCol : Option String
  refConfigs : List (Option RefConfig)
  today : Int
  dateParse : String → Option Int
  dateRaises : Option String

/-- `clean_match_value` applied through `astype(str)` to a cell
(source lines 437-438). -/
def cleanCell (c : Cell) : Cell := .str (clean_match_value (cellToStr c))

/-- Python `", ".join` and friends. -/
def joinSep (sep : String) : List String → String
  | [] => ""
  | [x] => x
  | x :: y :: t => x ++ sep ++ joinSep sep (y :: t)

/-- The f-string `Ref{idx+1}` for a zero-based slot index. -/
def slotLabel (idx : Nat) : String := "Ref" ++ toString (idx + 1)

/-- The renamed return column `Ref{idx+1}_{col}` (source line 441). -/
def refColName (idx : Nat) (c : String) : String := slotLabel idx ++ "_" ++ c

/-- The separator column name `Separator{idx+1}` (source line 454). -/
def sepName (idx : Nat) : String := "Separator" ++ toString (idx + 1)

/-- The source-attribution dictionary `match_sources_dict` (line 422):
an insertion-ordered association list with distinct keys. -/
def dictInit (keys : List String) : List (String × List String) :=
  keys.foldl (fun d k => if d.any (fun e => e.1 == k) then d else d ++ [(k, [])]) []

/-- `if key in match_sources_dict: match_sources_dict[key].append(lbl)`
(lines 448-449). -/
def dictAppend (d : List (String × List String)) (k lbl : String) :
    List (String × List String) :=
  d.map (fun e => if e.1 == k then (e.1, e.2 ++ [lbl]) else e)

/-- `match_sources_dict.get(key, [])` (line 459). -/
def dictGet (d : List (String × List String)) (k : String) : List String :=
  match d.find? (fun e => e.1 == k) with
  | some e => e.2
  | none => []

/-- `int((current_step / total_steps) * 100)` (line 451), in exact
arithmetic. -/
def pct (step total : Nat) : Nat := step * 100 / total

/-- The mutable state threaded through the slot loop that the merged table
depends on: the running DataFrame, the attribution dictionary, the step
counter and the emitted progress percentages. -/
structure Core where
  df : Table
  dict : List (String × List String)
  step : Nat
  progress : List Nat
deriving DecidableEq, Repr

/-- Core state plus the status and debug-log channels. -/
structure St where
  core : Core
  statuses : List String
  log : List String
deriving DecidableEq, Repr

/-- The row loop of one slot (lines 445-452): per merged row, append the
slot label to the attribution list of the cleaned key when the mask is
non-missing, then advance the step counter and emit a percentage. -/
def processRows (label : String) (soaIdx maskIdx total : Nat)
    (rows : List (List Cell)) (c : Core) : Core :=
  rows.foldl (fun c row =>
    let c1 :=
      if cellNotna (row.getD maskIdx Cell.missing) then
        { c with dict := (dictAppend c.dict
            (clean_match_value (cellToStr (row.getD soaIdx Cell.missing))) label) }
      else c
    { c1 with step := c1.step + 1, progress := c1.progress ++ [pct (c1.step + 1) total] })
    c

/-- The body of the try block of one slot (lines 432-454).  Each point at
which the Python raises (a missing label, an empty return-column list) is
an error return carrying the state mutated so far, as the caught exception
leaves it in the source. -/
def slotBody (soaMatch : String) (total idx : Nat) (cfg : RefConfig) (c : Core) :
    Core × Option String :=
  match cfg.table.col cfg.matchCol with
  | none => (c, some ("KeyError: " ++ cfg.matchCol))
  | some refKeyVals =>
    let refT := cfg.table.setCol cfg.matchCol (refKeyVals.map cleanCell)
    match c.df.col soaMatch with
    | none => (c, some ("KeyError: " ++ soaMatch))
    | some soaVals =>
      let c1 : Core := { c with df := c.df.setCol soaMatch (soaVals.map cleanCell) }
      match refT.select (cfg.matchCol :: cfg.returnCols) with
      | none => (c1, some "KeyError: return columns")
      | some ext0 =>
        let ext : Table := { header := cfg.matchCol :: cfg.returnCols.map (refColName idx),
                             rows := ext0.rows }
        let c2 : Core := { c1 with df := leftJoin c1.df ext soaMatch cfg.matchCol }
        match cfg.returnCols.head? with
        | none => (c2, some "IndexError: list index out of range")
        | some r0 =>
          match c2.df.colIdx (refColName idx r0), c2.df.colIdx soaMatch with
          | some maskIdx, some soaIdx =>
            let c3 := processRows (slotLabel idx) soaIdx maskIdx total c2.df.rows c2
            let c4 := if 0 < idx then
                { c3 with df := (c3.df.setCol (sepName idx)
                    (List.replicate c3.df.rows.length (Cell.str ""))) }
              else c3
            (c4, none)
          | _, _ => (c2, some "KeyError: mask column")

/-- One iteration of `for idx, config in enumerate(self.ref_configs)`
(lines 428-457): a missing slot is skipped; otherwise the try body runs and
a raised error is logged and surfaced as a status (lines 455-457). -/
def processSlot (soaMatch : String) (total : Nat) (idx : Nat)
    (cfgOpt : Option RefConfig) (st : St) : St :=
  match cfgOpt with
  | none => st
  | some cfg =>
    let msg := "Matching " ++ slotLabel idx ++ " | Match = " ++ cfg.matchCol ++
      " | Returns = " ++ joinSep ", " cfg.returnCols
    match slotBody soaMatch total idx cfg st.core with
    | (c, none) => { core := c, statuses := st.statuses ++ [msg], log := st.log }
    | (c, some e) =>
      { core := c,
        statuses := st.statuses ++ [msg, "Error matching " ++ slotLabel idx ++ ": " ++ e],
        log := st.log ++ ["Match Error " ++ slotLabel idx ++ ": " ++ e] }

/-- The enumerated fold over the reference slots. -/
def slotFold (soaMatch : String) (total : Nat) :
    Nat → List (Option RefConfig) → St → St
  | _, [], st => st
  | i, cfg :: rest, st =>
    slotFold soaMatch total (i + 1) rest (processSlot soaMatch total i cfg st)

/-! ## Age phase (source lines 376-407) -/

/-- Column names introduced by the aging block. -/
def ageDaysCol : String := "Age (Days)"

/-- Name of the bucket column. -/
def ageBucketCol : String := "Age Bucket"

/-- `pd.to_datetime` of one cell under errors=coerce, through the supplied
permissive parser. -/
def cellDateParse (parse : String → Option Int) : Cell → Option Int
  | .missing => none
  | .str s => parse s
  | .int i => parse (toString i)

/-- Read a whole-day age back out of the age column. -/
def cellAgeVal : Cell → Option Int
  | .int i => some i
  | _ => none

/-- The successful body of the aging block (lines 382-400): the age and
bucket columns are added, the bucket column is moved to the front, and the
original date text is written back (it was never overwritten, matching
line 400). -/
def ageAddCols (parse : String → Option Int) (today : Int) (dc : String) (df : Table) :
    Table :=
  let orig := (df.col dc).getD []
  let ages : List (Option Int) :=
    orig.map (fun c => (cellDateParse parse c).map (fun d => today - d))
  let df1 := df.setCol ageDaysCol (ages.map (fun o =>
    match o with
    | none => Cell.missing
    | some i => Cell.int i))
  let df2 := df1.setCol ageBucketCol
    (((df1.col ageDaysCol).getD []).map (fun c => Cell.str (bucket (cellAgeVal c))))
  let df3 := df2.popInsertFront ageBucketCol
  df3.setCol dc orig

/-- The aging block (lines 376-407): skipped when no date column is
designated or the label is absent; a structural parse error (`dateRaises`)
aborts with that error; otherwise `ageAddCols` runs. -/
def agePhase (inp : RunInput) : Except String Table :=
  match inp.dateCol with
  | none => .ok inp.soa
  | some dc =>
    if inp.soa.hasCol dc then
      match inp.dateRaises with
      | some e => .error e
      | none => .ok (ageAddCols inp.dateParse inp.today dc inp.soa)
    else .ok inp.soa

/-! ## Date-column cleanup (source lines 467-477) -/

/-- The date keywords of line 468. -/
def dateKeywords : List String := ["date", "dt", "dated"]

/-- Substring containment on character lists. -/
def containsSubChars (n : List Char) : List Char → Bool
  | [] => n.isEmpty
  | c :: t => n.isPrefixOf (c :: t) || containsSubChars n t

/-- Lowercasing via the character map (Python `str.lower` on ASCII). -/
def lowerStr (s : String) : String := String.mk (s.data.map Char.toLower)

/-- Substring containment on strings. -/
def containsSub (needle hay : String) : Bool := containsSubChars needle.data hay.data

/-- Python `str.startswith`. -/
def startsWithStr (pre s : String) : Bool := pre.data.isPrefixOf s.data

/-- A column is cleaned when its lowercased name contains a date keyword. -/
def isDateCol (c : String) : Bool := dateKeywords.any (fun kw => containsSub kw (lowerStr c))

/-- Reversed characters of the time suffix. -/
def timeSuffixRev : List Char := "00:00:00".data.reverse

/-- The regex replacement removing a trailing whitespace-plus-00:00:00
suffix (line 473): the greedy whitespace run and the suffix are removed
when the suffix is preceded by at least one whitespace character. -/
def stripTimeChars (l : List Char) : List Char :=
  let r := l.reverse
  if timeSuffixRev.isPrefixOf r then
    let rest := r.drop 8
    match rest with
    | [] => l
    | c :: _ => if isWS c then (rest.dropWhile isWS).reverse else l
  else l

/-- String form of the time-suffix strip. -/
def stripTimeSuffix (s : String) : String := String.mk (stripTimeChars s.data)

/-- Per-cell cleanup of a date-keyword column (lines 473-475): render as a
string, strip the time suffix, and blank the textual nan and NaT markers. -/
def cleanupCell (c : Cell) : Cell :=
  let s := stripTimeSuffix (cellToStr c)
  Cell.str (if s = "nan" then "" else if s = "NaT" then "" else s)

/-- The date-column cleanup loop (lines 469-477). -/
def dateCleanup (t : Table) : Table :=
  (t.header.filter isDateCol).foldl (fun acc c => acc.mapCol c cleanupCell) t

/-! ## Amount mismatch block (source lines 497-582) -/

/-- The amount keywords of line 504. -/
def amountKeywords : List String := ["amount", "amt", "value", "total", "sum", "price", "cost"]

/-- Reference amount columns: a Ref-prefixed name containing an amount
keyword (lines 505-507). -/
def isRefAmountCol (c : String) : Bool :=
  (amountKeywords.any (fun kw => containsSub kw (lowerStr c))) && startsWithStr "Ref" c

/-- Value of a digit string. -/
def digitsVal (l : List Char) : Nat := l.foldl (fun a c => 10 * a + (c.toNat - 48)) 0

/-- An exact decimal number `num / 10 ^ scale`: the value of a parsed
amount literal.  Decimal literals denote exactly these numbers, so the
float arithmetic of the mismatch block is modelled exactly on them. -/
structure Dec where
  num : Int
  scale : Nat
deriving DecidableEq, Repr

/-- The rational value of a parsed decimal. -/
def Dec.toQ (d : Dec) : ℚ := (d.num : ℚ) / ((10 : ℚ) ^ d.scale)

/-- Python `float()` on plain decimal literals: optional fractional part,
at least one digit overall. -/
def parseDecimal (l : List Char) : Option Dec :=
  match l.span (fun c => !(c = '.')) with
  | (ip, rest) =>
    match rest with
    | [] =>
      if !ip.isEmpty && ip.all Char.isDigit then
        some { num := (digitsVal ip : Int), scale := 0 }
      else none
    | _ :: fp =>
      if (!ip.isEmpty || !fp.isEmpty) && ip.all Char.isDigit && fp.all Char.isDigit then
        some { num := (digitsVal ip : Int) * (10 : Int) ^ fp.length + (digitsVal fp : Int),
               scale := fp.length }
      else none

/-- Signed decimal parsing. -/
def parseSigned (l : List Char) : Option Dec :=
  match l with
  | c :: t =>
    if c = '-' then (parseDecimal t).map (fun d => { d with num := -d.num })
    else if c = '+' then parseDecimal t
    else parseDecimal l
  | [] => none

/-- The amount parser of lines 528 and 539:
`float(str(val).replace(chr(44), empty).replace(chr(36), empty).strip())`,
returning `none` where the Python raises ValueError. -/
def parseAmount (s : String) : Option Dec :=
  parseSigned (trimChars (s.data.filter (fun c => !(c = ',') && !(c = '$'))))

/-- Exact difference of two decimals (scales aligned by cross
multiplication). -/
def decSub (a b : Dec) : Dec :=
  { num := a.num * (10 : Int) ^ b.scale - b.num * (10 : Int) ^ a.scale,
    scale := a.scale + b.scale }

/-- The threshold test `abs(diff) > 0.01` on an exact decimal:
`abs num / 10 ^ scale > 1 / 100` iff `100 * abs num > 10 ^ scale`. -/
def decAbsOverCent (d : Dec) : Bool := (10 : Nat) ^ d.scale < 100 * d.num.natAbs

/-- Strict positivity of a decimal. -/
def decPos (d : Dec) : Bool := 0 < d.num

/-- Round an exact decimal to whole cents, half to even: the decimal
reading of the two-place float format spec. -/
def rheCents (d : Dec) : Int :=
  let x : Int := d.num * 100
  let den : Int := (10 : Int) ^ d.scale
  let n : Int := Int.fdiv x den
  let r : Int := x - n * den
  if den < 2 * r then n + 1
  else if 2 * r < den then n
  else if n % 2 = 0 then n else n + 1

/-- Two-digit rendering of a sub-unit cent count. -/
def twoDigits (k : Nat) : String := (if k < 10 then "0" else "") ++ toString k

/-- The float format spec .2f on an exact decimal. -/
def fmt2 (d : Dec) : String :=
  let n := rheCents d
  (if n < 0 then "-" else "") ++ toString (n.natAbs / 100) ++ "." ++ twoDigits (n.natAbs % 100)

/-- `ref_col.split(chr(95))[0]` (line 542): the slot label prefix. -/
def refNamePrefix (c : String) : String := String.mk (c.data.takeWhile (fun ch => !(ch = '_')))

/-- One difference entry (lines 545-558): over the 0.01 threshold the
signed two-decimal difference is recorded and the cells are flagged;
otherwise the fixed text 0.00 is recorded unflagged. -/
def diffEntry (slot : String) (diff : Dec) : String × Bool :=
  if decAbsOverCent diff then
    ((if decPos diff then slot ++ ": +" ++ fmt2 diff else slot ++ ": " ++ fmt2 diff), true)
  else (slot ++ ": 0.00", false)

/-- Result of the mismatch block: the table (with the appended
Amount Difference column when annotation ran), the flagged cell
coordinates, and the status and log lines it emits. -/
structure AnnotateResult where
  table : Table
  flags : List (Nat × Nat)
  statuses : List String
  log : List String
deriving DecidableEq, Repr

/-- The mismatch block (lines 497-582).  Annotation runs only when an
amount column was designated, exists, and at least one reference amount
column is detected; otherwise the informational statuses of lines 577-582
are emitted and the table is unchanged. -/
def annotateAmounts (amountCol : Option String) (t : Table) : AnnotateResult :=
  let allCols := t.header
  let refAmtCols := allCols.filter isRefAmountCol
  match amountCol with
  | none =>
    { table := t, flags := [],
      statuses := ["Amount comparison: No amount column selected for comparison"],
      log := ["Amount Highlighting SKIPPED: No SOA amount column selected"] }
  | some a =>
    if t.hasCol a && !refAmtCols.isEmpty then
      let soaIdx := (t.colIdx a).getD 0
      let per : List (String × List (Nat × Nat) × Nat) :=
        t.rows.enum.map (fun p =>
          let ri := p.1
          let row := p.2
          let soaVal := row.getD soaIdx Cell.missing
          let soaNum : Option Dec :=
            if cellNotna soaVal then parseAmount (cellToStr soaVal) else none
          let entries : List (String × Bool × Nat) := refAmtCols.filterMap (fun rc =>
            let rci := (t.colIdx rc).getD 0
            let refVal := row.getD rci Cell.missing
            if cellNotna refVal && soaNum.isSome then
              match soaNum, parseAmount (cellToStr refVal) with
              | some sq, some rq =>
                let e := diffEntry (refNamePrefix rc) (decSub sq rq)
                some (e.1, e.2, rci)
              | _, _ => none
            else none)
          let flagged := entries.filter (fun e => e.2.1)
          (joinSep ", " (entries.map (fun e => e.1)),
           flagged.flatMap (fun e => [(ri, soaIdx), (ri, e.2.2)]),
           flagged.length))
      { table := t.setCol "Amount Difference" (per.map (fun p => Cell.str p.1)),
        flags := per.flatMap (fun p => p.2.1),
        statuses := ["Amount comparison: " ++ toString refAmtCols.length ++
          " ref column(s) checked, " ++ toString ((per.map (fun p => p.2.2)).sum) ++
          " mismatches highlighted"],
        log := ["Amount Highlighting: SOA column = " ++ a] }
    else
      { table := t, flags := [],
        statuses := ["Amount comparison: No Ref amount columns detected for comparison with " ++ a],
        log := ["Amount Highlighting: No matching Ref amount columns found. SOA col = " ++ a] }

/-! ## The whole run (RecoWorker.run, lines 373-587) -/

/-- Output of one run: the merged table handed to `reco_complete` (`none`
when the run aborted before reaching it), the status and log channels, the
progress percentages, and the highlighted cells. -/
structure RunOutput where
  table : Option Table
  statuses : List String
  log : List String
  progress : List Nat
  flags : List (Nat × Nat)
deriving DecidableEq, Repr

/-- The post-slot phase (lines 458-477): build the Match Source column from
the attribution dictionary, emit the final percentage, drop a leftover
Separator1 column, and clean the date-keyword columns. -/
def finishCore (soaMatch : String) (c : Core) : Core :=
  let keyCells := (c.df.col soaMatch).getD []
  let msVals := keyCells.map (fun cl =>
    Cell.str (joinSep ", " (dictGet c.dict (clean_match_value (cellToStr cl)))))
  let df2 := c.df.setCol "Match Source" msVals
  let df3 := if df2.hasCol "Separator1" then df2.dropCol "Separator1" else df2
  { c with df := dateCleanup df3, progress := c.progress ++ [100] }

/-- `total_steps` of line 425: the number of configured slots (present or
absent, always four in the application) times the statement row count. -/
def runTotal (nSlots nRows : Nat) : Nat := if 0 < nRows then nSlots * nRows else 1

/-- The state at line 423: the aged table, the freshly initialized
attribution dictionary, and the first status line. -/
def initSt (df1 : Table) (keyCells0 : List Cell) : St :=
  { core := { df := df1,
              dict := dictInit (keyCells0.map (fun cl => clean_match_value (cellToStr cl))),
              step := 0, progress := [] },
    statuses := ["Starting reconciliation..."], log := [] }

/-- Lines 458-587 after the slot loop: finish the core (Match Source,
final percentage, separator drop, date cleanup), annotate amounts, and
assemble the emitted output. -/
def runFinish (inp : RunInput) (st1 : St) : RunOutput :=
  { table := some (annotateAmounts inp.amountCol (finishCore inp.soaMatch st1.core).df).table,
    statuses := st1.statuses ++ ["Reconciliation Complete"] ++
      (annotateAmounts inp.amountCol (finishCore inp.soaMatch st1.core).df).statuses,
    log := st1.log ++ (annotateAmounts inp.amountCol (finishCore inp.soaMatch st1.core).df).log,
    progress := (finishCore inp.soaMatch st1.core).progress,
    flags := (annotateAmounts inp.amountCol (finishCore inp.soaMatch st1.core).df).flags }

/-- The output of a run aborted by the date-error branch (lines 401-407):
only the warning status and the log entry were emitted. -/
def abortOutput (e : String) : RunOutput :=
  { table := none,
    statuses := ["[WARNING] Age Bucket Error: " ++ e],
    log := ["Age Bucket Error: " ++ e],
    progress := [], flags := [] }

/-- The run after a successful aging phase: line 422 reads the statement
match column (a missing label is the uncaught exception killing the
thread, modelled as an empty output with no table), then the slot loop and
the finishing phases run. -/
def afterAge (inp : RunInput) (df1 : Table) : RunOutput :=
  match df1.col inp.soaMatch with
  | none => { table := none, statuses := [], log := [], progress := [], flags := [] }
  | some keyCells0 =>
    runFinish inp
      (slotFold inp.soaMatch (runTotal inp.refConfigs.length df1.rows.length) 0
        inp.refConfigs (initSt df1 keyCells0))

/-- `RecoWorker.run`.  A structural date error returns early with no table
(line 407); otherwise the slots are folded, the table is finished and
annotated, and the result is emitted. -/
def runReco (inp : RunInput) : RunOutput :=
  match agePhase inp with
  | .error e => abortOutput e
  | .ok df1 => afterAge inp df1

/-! ## Lemmas about trimming and digit strings -/

theorem dropWhile_head_false {p : Char → Bool} :
    ∀ {l : List Char} {c : Char} {t : List Char},
      List.dropWhile p l = c :: t → p c = false := by
  intro l
  induction l with
  | nil => intro c t h; simp [List.dropWhile] at h
  | cons a as ih =>
    intro c t h
    by_cases hp : p a = true
    · rw [List.dropWhile_cons_of_pos hp] at h
      exact ih h
    · rw [List.dropWhile_cons_of_neg hp] at h
      cases h
      simpa using hp

theorem head?_dropWhile_false {p : Char → Bool} {l : List Char} {c : Char}
    (h : (List.dropWhile p l).head? = some c) : p c = false := by
  rcases hx : List.dropWhile p l with _ | ⟨a, t⟩
  · rw [hx] at h; simp at h
  · rw [hx] at h
    simp at h
    rw [h] at hx
    exact dropWhile_head_false hx

theorem dropWhile_eq_self_of_head {p : Char → Bool} {l : List Char}
    (h : ∀ c, l.head? = some c → p c = false) : l.dropWhile p = l := by
  cases l with
  | nil => rfl
  | cons a as =>
    have : p a = false := h a rfl
    simp [List.dropWhile, this]

theorem dropWhile_is_suffix (p : Char → Bool) :
    ∀ l : List Char, ∃ t, t ++ l.dropWhile p = l := by
  intro l
  induction l with
  | nil => exact ⟨[], rfl⟩
  | cons a as ih =>
    by_cases hp : p a = true
    · rcases ih with ⟨t, ht⟩
      exact ⟨a :: t, by rw [List.dropWhile_cons_of_pos hp]; simpa using ht⟩
    · exact ⟨[], by rw [List.dropWhile_cons_of_neg hp]; simp⟩

theorem getLast?_append_right {l₁ l₂ : List Char} {c : Char}
    (h : l₂.getLast? = some c) : (l₁ ++ l₂).getLast? = some c := by
  cases l₂ with
  | nil => simp at h
  | cons b bs =>
    rw [List.getLast?_append_cons]
    exact h

/-- If a list has no leading and no trailing whitespace, trimming is the
identity. -/
theorem trimChars_eq_self {l : List Char}
    (h1 : ∀ c, l.head? = some c → isWS c = false)
    (h2 : ∀ c, l.getLast? = some c → isWS c = false) :
    trimChars l = l := by
  unfold trimChars
  rw [dropWhile_eq_self_of_head h1]
  rw [dropWhile_eq_self_of_head (by
    intro c hc
    rw [List.head?_reverse] at hc
    exact h2 c hc)]
  exact List.reverse_reverse l

/-- The last element of a trimmed list is not whitespace. -/
theorem trimChars_getLast {l : List Char} {c : Char}
    (h : (trimChars l).getLast? = some c) : isWS c = false := by
  unfold trimChars at h
  rw [List.getLast?_reverse] at h
  exact head?_dropWhile_false h

theorem all_head? {p : Char → Bool} {l : List Char} {c : Char}
    (hall : l.all p = true) (h : l.head? = some c) : p c = true := by
  cases l with
  | nil => simp at h
  | cons a t =>
    simp only [List.all_cons, Bool.and_eq_true] at hall
    simp at h
    exact h ▸ hall.1

theorem all_getLast? {p : Char → Bool} :
    ∀ {l : List Char} {c : Char}, l.all p = true → l.getLast? = some c → p c = true := by
  intro l
  induction l with
  | nil => intro c _ h; simp at h
  | cons a t ih =>
    intro c hall hlast
    simp only [List.all_cons, Bool.and_eq_true] at hall
    cases t with
    | nil =>
      simp at hlast
      rw [← hlast]
      exact hall.1
    | cons b t2 =>
      rw [List.getLast?_cons_cons] at hlast
      exact ih hall.2 hlast

theorem all_suffix {p : Char → Bool} {l s t : List Char}
    (hall : l.all p = true) (h : t ++ s = l) : s.all p = true := by
  rw [← h] at hall
  rw [List.all_append] at hall
  simp only [Bool.and_eq_true] at hall
  exact hall.2

theorem digit_not_ws {c : Char} (h : c.isDigit = true) : isWS c = false := by
  cases hw : isWS c with
  | false => rfl
  | true =>
    exfalso
    unfold isWS at hw
    simp [Char.isWhitespace] at hw
    rcases hw with ((h1 | h1) | h1) | h1 <;> subst h1 <;> exact absurd h (by decide)

theorem digit_not_quote {c : Char} (h : c.isDigit = true) : ¬ (c = quoteChar) := by
  intro hq
  rw [hq] at h
  exact absurd h (by decide)

theorem stripQuote_getLast {l : List Char} {c : Char}
    (h : (stripQuoteChars l).getLast? = some c) : l.getLast? = some c := by
  cases l with
  | nil => simp [stripQuoteChars] at h
  | cons a t =>
    by_cases hq : a = quoteChar
    · simp [stripQuoteChars, hq] at h
      cases t with
      | nil => simp at h
      | cons b t2 =>
        rw [List.getLast?_cons_cons]
        exact h
    · simpa [stripQuoteChars, hq] using h

/-- Unfolding equation for `cleanChars`. -/
theorem cleanChars_eq (l : List Char) :
    cleanChars l =
      (if pyIsdigit (stripQuoteChars (trimChars l)) ||
          (!(stripQuoteChars (trimChars l)).isEmpty &&
            pyIsdigit (lstrip0 (stripQuoteChars (trimChars l)))) then
        (if (lstrip0 (stripQuoteChars (trimChars l))).isEmpty then ['0']
         else lstrip0 (stripQuoteChars (trimChars l)))
      else stripQuoteChars (trimChars l)) := rfl

/-- A nonempty digit string with no leading zero is a fixed point of the
normalizer. -/
theorem cleanChars_digit_fixed {a : Char} {t : List Char}
    (hd : (a :: t).all Char.isDigit = true)
    (h0 : ¬ (a = '0')) :
    cleanChars (a :: t) = a :: t := by
  have ha : a.isDigit = true := by
    simp [List.all_cons] at hd
    exact hd.1
  have htrim : trimChars (a :: t) = a :: t := by
    apply trimChars_eq_self
    · intro c hc
      simp at hc
      rw [← hc]
      exact digit_not_ws ha
    · intro c hc
      exact digit_not_ws (all_getLast? hd hc)
  have hstrip : stripQuoteChars (a :: t) = a :: t := by
    simp [stripQuoteChars, digit_not_quote ha]
  have hlstrip : lstrip0 (a :: t) = a :: t := by
    apply dropWhile_eq_self_of_head
    intro c hc
    simp at hc
    rw [← hc]
    exact decide_eq_false h0
  have hpy : pyIsdigit (a :: t) = true := by
    simp [pyIsdigit, hd]
  rw [cleanChars_eq, htrim, hstrip, hlstrip, hpy]
  simp

/-- Idempotence of the normalizer core on every input whose normal form
does not begin with an apostrophe or whitespace. -/
theorem cleanChars_idem {l : List Char} (hok : headOkb (cleanChars l) = true) :
    cleanChars (cleanChars l) = cleanChars l := by
  by_cases hc : (pyIsdigit (stripQuoteChars (trimChars l)) ||
      (!(stripQuoteChars (trimChars l)).isEmpty &&
        pyIsdigit (lstrip0 (stripQuoteChars (trimChars l))))) = true
  · have hr : cleanChars l =
        (if (lstrip0 (stripQuoteChars (trimChars l))).isEmpty then ['0']
         else lstrip0 (stripQuoteChars (trimChars l))) := by
      rw [cleanChars_eq, if_pos hc]
    by_cases he : (lstrip0 (stripQuoteChars (trimChars l))).isEmpty = true
    · rw [hr, if_pos he]
      decide
    · rw [hr, if_neg he]
      have hall : (lstrip0 (stripQuoteChars (trimChars l))).all Char.isDigit = true := by
        have hc2 := hc
        simp only [Bool.or_eq_true, Bool.and_eq_true, pyIsdigit] at hc2
        rcases hc2 with ⟨_, hall0⟩ | ⟨_, _, hall0⟩
        · rcases dropWhile_is_suffix (fun c => decide (c = '0'))
            (stripQuoteChars (trimChars l)) with ⟨t, ht⟩
          exact all_suffix hall0 ht
        · exact hall0
      rcases hx : lstrip0 (stripQuoteChars (trimChars l)) with _ | ⟨a, t⟩
      · rw [hx] at he; simp at he
      · rw [hx] at hall
        apply cleanChars_digit_fixed hall
        have := dropWhile_head_false hx
        simpa using this
  · have hr : cleanChars l = stripQuoteChars (trimChars l) := by
      rw [cleanChars_eq, if_neg hc]
    rcases hcase : stripQuoteChars (trimChars l) with _ | ⟨a, t⟩
    · rw [hr, hcase]
      decide
    · rw [hr] at hok ⊢
      rw [hcase] at hok ⊢
      have hhead : ¬ (a = quoteChar) ∧ isWS a = false := by
        simp [headOkb] at hok
        exact hok
      have hlast : ∀ c, (a :: t).getLast? = some c → isWS c = false := by
        intro c hcL
        apply @trimChars_getLast l c
        apply stripQuote_getLast
        rw [hcase]
        exact hcL
      have htrim : trimChars (a :: t) = a :: t := by
        apply trimChars_eq_self
        · intro c hcH
          simp at hcH
          rw [← hcH]
          exact hhead.2
        · exact hlast
      have hstrip : stripQuoteChars (a :: t) = a :: t := by
        simp [stripQuoteChars, hhead.1]
      rw [cleanChars_eq, htrim, hstrip]
      rw [if_neg (by rw [← hcase]; exact hc)]

/-! ## C1: idempotence of the key normalizer -/

/-- C1 (counterexample): the claim that `normalize(normalize(x)) ==
normalize(x)` for every x is false.  On the input consisting of two
apostrophes and a zero, one application removes only the first apostrophe
(giving apostrophe-zero), and a second application removes the second
apostrophe and normalizes the digit, giving a different string. -/
theorem C1_counterexample :
    clean_match_value (clean_match_value (String.mk [quoteChar, quoteChar, '0'])) ≠
      clean_match_value (String.mk [quoteChar, quoteChar, '0']) := by decide

/-- C1 (amended): the normalizer is idempotent on every input whose
normalized form does not begin with an apostrophe or a whitespace
character; equivalently, every string in the image of the normalizer that
does not begin with an apostrophe or whitespace is a fixed point.  (The
exception arises because the normalizer removes at most one leading
apostrophe after a single trim, so a second apostrophe or inner whitespace
exposed by the removal is only processed by a second application.) -/
theorem C1_normalizer_idempotent_amended (s : String)
    (hok : headOkb (clean_match_value s).data = true) :
    clean_match_value (clean_match_value s) = clean_match_value s :=
  congrArg String.mk (cleanChars_idem hok)

/-- C1 witness: the zero-padded key of the spec example satisfies the
amended hypothesis and is idempotent. -/
theorem C1_witness :
    headOkb (clean_match_value "0308607218").data = true ∧
    clean_match_value (clean_match_value "0308607218") = clean_match_value "0308607218" :=
  ⟨by decide, C1_normalizer_idempotent_amended "0308607218" (by decide)⟩

/-! ## C3: the age bucket policy -/

/-- C3: the bucket function maps a missing age to Unknown and an age of d
whole days to the six inclusive ranges of the spec; with as-of date
2024-06-30, the dates 2024-06-16 and 2024-06-15 bucket to 0-15 (ages 14
and 15), 2024-06-01 buckets to 16-30 (age 29), and an unparseable date
yields a missing age and bucket Unknown through the aging phase. -/
theorem C3_age_bucket_policy :
    bucket none = "Unknown" ∧
    (∀ d : Int, bucket (some d) =
      if d ≤ 15 then "0-15"
      else if d ≤ 30 then "16-30"
      else if d ≤ 60 then "31-60"
      else if d ≤ 90 then "61-90"
      else if d ≤ 120 then "91-120"
      else "121+") ∧
    (daysFromCivil 2024 6 30 - daysFromCivil 2024 6 16 = 14 ∧
      bucket (some (daysFromCivil 2024 6 30 - daysFromCivil 2024 6 16)) = "0-15") ∧
    (daysFromCivil 2024 6 30 - daysFromCivil 2024 6 15 = 15 ∧
      bucket (some (daysFromCivil 2024 6 30 - daysFromCivil 2024 6 15)) = "0-15") ∧
    (daysFromCivil 2024 6 30 - daysFromCivil 2024 6 1 = 29 ∧
      bucket (some (daysFromCivil 2024 6 30 - daysFromCivil 2024 6 1)) = "16-30") ∧
    agePhase
      { soa := { header := ["Date"], rows := [[Cell.str "garbage"]] },
        soaMatch := "Date", dateCol := some "Date", amountCol := none,
        refConfigs := [], today := daysFromCivil 2024 6 30,
        dateParse := fun _ => none, dateRaises := none } =
      Except.ok { header := [ageBucketCol, "Date", ageDaysCol],
                  rows := [[Cell.str "Unknown", Cell.str "garbage", Cell.missing]] } := by
  refine ⟨rfl, fun d => rfl, ⟨by decide, by decide⟩, ⟨by decide, by decide⟩,
    ⟨by decide, by decide⟩, by rfl⟩

/-! ## C5: a structural date error aborts the run -/

/-- C5: when a date column is designated and present and processing it
raises a structural error, the reconciliation run aborts: the only status
is the warning, the merged table is never produced, and no join, Match
Source construction or progress emission happens. -/
theorem C5_date_error_aborts (inp : RunInput) (dc e : String)
    (h1 : inp.dateCol = some dc) (h2 : inp.soa.hasCol dc = true)
    (h3 : inp.dateRaises = some e) :
    (runReco inp).table = none ∧
    (runReco inp).statuses = ["[WARNING] Age Bucket Error: " ++ e] ∧
    (runReco inp).progress = [] ∧
    (runReco inp).flags = [] := by
  have hage : agePhase inp = Except.error e := by
    unfold agePhase
    rw [h1]
    simp [h2, h3]
  unfold runReco
  rw [hage]
  exact ⟨rfl, rfl, rfl, rfl⟩

/-- C5 witness: a concrete aborted run. -/
theorem C5_witness :
    (runReco { soa := { header := ["D"], rows := [[Cell.str "x"]] },
               soaMatch := "D", dateCol := some "D", amountCol := none,
               refConfigs := [], today := 0,
               dateParse := fun _ => none, dateRaises := some "boom" }).table = none ∧
    (runReco { soa := { header := ["D"], rows := [[Cell.str "x"]] },
               soaMatch := "D", dateCol := some "D", amountCol := none,
               refConfigs := [], today := 0,
               dateParse := fun _ => none, dateRaises := some "boom" }).progress = [] := by
  have h := C5_date_error_aborts
    { soa := { header := ["D"], rows := [[Cell.str "x"]] },
      soaMatch := "D", dateCol := some "D", amountCol := none,
      refConfigs := [], today := 0,
      dateParse := fun _ => none, dateRaises := some "boom" }
    "D" "boom" rfl (by decide) rfl
  exact ⟨h.1, h.2.2.1⟩

/-! ## C9: determinism of the pipeline -/

/-- C9: the pipeline is deterministic: two runs on equal inputs (equal
statement table, configs, and as-of date) produce equal outputs — equal
merged tables, statuses, progress and flags.  The embedded `runReco` is a
pure function of its input; the source reads no other state (the wall
clock and the pandas date parser are part of `RunInput`). -/
theorem C9_deterministic (a b : RunInput) (h : a = b) : runReco a = runReco b :=
  congrArg runReco h

/-- C9 witness: a concrete double run. -/
theorem C9_witness :
    runReco { soa := { header := ["K"], rows := [[Cell.str "1"]] },
              soaMatch := "K", dateCol := none, amountCol := none,
              refConfigs := [], today := 0,
              dateParse := fun _ => none, dateRaises := none } =
    runReco { soa := { header := ["K"], rows := [[Cell.str "1"]] },
              soaMatch := "K", dateCol := none, amountCol := none,
              refConfigs := [], today := 0,
              dateParse := fun _ => none, dateRaises := none } :=
  C9_deterministic _ _ rfl

/-! ## Index and search helper lemmas -/

theorem findIdx?_none_of_all {α : Type} {p : α → Bool} {l : List α}
    (h : ∀ x ∈ l, p x = false) : l.findIdx? p = none :=
  List.findIdx?_eq_none_iff.mpr h

theorem findIdx?_append_left {α : Type} {p : α → Bool} :
    ∀ {l1 : List α} (l2 : List α) {j : Nat},
      l1.findIdx? p = some j → (l1 ++ l2).findIdx? p = some j := by
  intro l1
  induction l1 with
  | nil => intro l2 j h; simp [List.findIdx?] at h
  | cons a t ih =>
    intro l2 j h
    rw [List.findIdx?_cons, List.findIdx?_succ] at h
    rw [List.cons_append, List.findIdx?_cons, List.findIdx?_succ]
    cases hp : p a with
    | true => rw [hp] at h; simpa using h
    | false =>
      rw [hp] at h
      rw [if_neg (show ¬(false = true) by decide)] at h ⊢
      simp only [Option.map_eq_some'] at h ⊢
      rcases h with ⟨k, hk, hj⟩
      exact ⟨k, ih l2 hk, hj⟩

theorem findIdx?_append_right {α : Type} {p : α → Bool} :
    ∀ {l1 : List α} (l2 : List α), l1.findIdx? p = none →
      (l1 ++ l2).findIdx? p = (l2.findIdx? p).map (fun k => k + l1.length) := by
  intro l1
  induction l1 with
  | nil => intro l2 _; simp
  | cons a t ih =>
    intro l2 h
    rw [List.findIdx?_cons, List.findIdx?_succ] at h
    rw [List.cons_append, List.findIdx?_cons, List.findIdx?_succ]
    cases hp : p a with
    | true => rw [hp] at h; simp at h
    | false =>
      rw [hp] at h
      rw [if_neg (show ¬(false = true) by decide)] at h ⊢
      have ht : t.findIdx? p = none := by
        cases hx : t.findIdx? p with
        | none => rfl
        | some k => rw [hx] at h; simp at h
      rw [ih l2 ht]
      cases l2.findIdx? p with
      | none => rfl
      | some k =>
        simp only [Option.map_some', List.length_cons]
        congr 1

theorem findIdx?_lt_length {α : Type} {p : α → Bool} :
    ∀ {l : List α} {j : Nat}, l.findIdx? p = some j → j < l.length := by
  intro l
  induction l with
  | nil => intro j h; simp [List.findIdx?] at h
  | cons a t ih =>
    intro j h
    rw [List.findIdx?_cons, List.findIdx?_succ] at h
    cases hp : p a with
    | true =>
      rw [hp] at h
      simp at h
      simp [← h]
    | false =>
      rw [hp] at h
      rw [if_neg (show ¬(false = true) by decide)] at h
      simp only [Option.map_eq_some'] at h
      rcases h with ⟨k, hk, hj⟩
      have := ih hk
      simp only [List.length_cons, ← hj]
      omega

theorem getD_append_self {α : Type} {l : List α} {x d : α} :
    (l ++ [x]).getD l.length d = x := by
  induction l with
  | nil => rfl
  | cons a t ih => simp

theorem eraseIdx_append_self {α : Type} {l : List α} {x : α} :
    (l ++ [x]).eraseIdx l.length = l := by
  induction l with
  | nil => rfl
  | cons a t ih => simpa [List.eraseIdx] using ih

theorem getD_set_self {α : Type} :
    ∀ {l : List α} {i : Nat} {v d : α}, i < l.length → (l.set i v).getD i d = v := by
  intro l
  induction l with
  | nil => intro i v d h; simp at h
  | cons a t ih =>
    intro i v d h
    cases i with
    | zero => rfl
    | succ k =>
      simp only [List.set_cons_succ, List.getD_cons_succ]
      exact ih (by simpa using h)

theorem getD_append_lt {α : Type} :
    ∀ {l l2 : List α} {i : Nat} {d : α}, i < l.length → (l ++ l2).getD i d = l.getD i d := by
  intro l
  induction l with
  | nil => intro l2 i d h; simp at h
  | cons a t ih =>
    intro l2 i d h
    cases i with
    | zero => rfl
    | succ k =>
      simp only [List.cons_append, List.getD_cons_succ]
      exact ih (by simpa using h)

theorem set_append_lt {α : Type} :
    ∀ {l l2 : List α} {i : Nat} {v : α}, i < l.length →
      (l ++ l2).set i v = l.set i v ++ l2 := by
  intro l
  induction l with
  | nil => intro l2 i v h; simp at h
  | cons a t ih =>
    intro l2 i v h
    cases i with
    | zero => rfl
    | succ k =>
      simp only [List.cons_append, List.set_cons_succ]
      rw [ih (by simpa using h)]

/-! ## Table-level helper lemmas -/

theorem colIdx_eq_none_of_hasCol_false {t : Table} {c : String}
    (h : t.hasCol c = false) : t.colIdx c = none := by
  unfold Table.hasCol at h
  cases hx : t.colIdx c with
  | none => rfl
  | some i => rw [hx] at h; simp at h

theorem hasCol_of_colIdx {t : Table} {c : String} {i : Nat}
    (h : t.colIdx c = some i) : t.hasCol c = true := by
  unfold Table.hasCol
  rw [h]
  rfl

theorem setCol_absent {t : Table} {c : String} {vs : List Cell}
    (h : t.colIdx c = none) :
    t.setCol c vs =
      { header := t.header ++ [c], rows := List.zipWith (fun r v => r ++ [v]) t.rows vs } := by
  unfold Table.setCol
  rw [h]

theorem setCol_present {t : Table} {c : String} {vs : List Cell} {i : Nat}
    (h : t.colIdx c = some i) :
    t.setCol c vs =
      { header := t.header, rows := List.zipWith (fun r v => r.set i v) t.rows vs } := by
  unfold Table.setCol
  rw [h]

theorem col_of_colIdx {t : Table} {c : String} {i : Nat} (h : t.colIdx c = some i) :
    t.col c = some (t.rows.map (fun r => r.getD i Cell.missing)) := by
  unfold Table.col
  rw [h]
  rfl

theorem popInsertFront_present {t : Table} {c : String} {i : Nat}
    (h : t.colIdx c = some i) :
    t.popInsertFront c =
      { header := c :: t.header.eraseIdx i,
        rows := t.rows.map (fun r => r.getD i Cell.missing :: r.eraseIdx i) } := by
  unfold Table.popInsertFront
  rw [h]

/-! ## C8: the aging step and the date column -/

/-- C8 (amended, aging step): under a designated, present date column and no
structural parse error, the aging block itself adds exactly the two derived
columns, places the bucket column first and the age column last, and leaves
the date column values untouched. -/
theorem C8_age_frame_amended (inp : RunInput) (dc : String) (j : Nat)
    (hdc : inp.dateCol = some dc)
    (hj : inp.soa.colIdx dc = some j)
    (hnr : inp.dateRaises = none)
    (hA : inp.soa.hasCol ageDaysCol = false)
    (hB : inp.soa.hasCol ageBucketCol = false)
    (hrect : ∀ r ∈ inp.soa.rows, r.length = inp.soa.header.length) :
    ∃ df, agePhase inp = Except.ok df ∧
      df.header = ageBucketCol :: (inp.soa.header ++ [ageDaysCol]) ∧
      df.col dc = inp.soa.col dc := by
  have hHas : inp.soa.hasCol dc = true := hasCol_of_colIdx hj
  have hjlt : j < inp.soa.header.length := by
    unfold Table.colIdx at hj
    exact findIdx?_lt_length hj
  have hne_dB : ¬ (dc = ageBucketCol) := by
    intro e
    rw [e] at hj
    rw [hasCol_of_colIdx hj] at hB
    exact absurd hB (by decide)
  -- abbreviations
  set h := inp.soa.header with hh
  set rows := inp.soa.rows with hrows
  set g0 : List Cell → Cell := fun r => r.getD j Cell.missing with hg0
  set af : List Cell → Cell := fun r =>
    (match (cellDateParse inp.dateParse (g0 r)).map (fun d => inp.today - d) with
     | none => Cell.missing
     | some i => Cell.int i) with haf
  set bf : List Cell → Cell := fun r => Cell.str (bucket (cellAgeVal (af r))) with hbf
  have E1 : inp.soa.col dc = some (rows.map g0) := col_of_colIdx hj
  -- the findIdx? facts, at list level
  have hfA : List.findIdx? (fun x => x == ageDaysCol) h = none := by
    have := colIdx_eq_none_of_hasCol_false hA
    unfold Table.colIdx at this
    exact this
  have hfB : List.findIdx? (fun x => x == ageBucketCol) h = none := by
    have := colIdx_eq_none_of_hasCol_false hB
    unfold Table.colIdx at this
    exact this
  have hfdc : List.findIdx? (fun x => x == dc) h = some j := by
    have := hj
    unfold Table.colIdx at this
    exact this
  -- step 1: add the age column
  have hdf1 : inp.soa.setCol ageDaysCol ((((inp.soa.col dc).getD []).map
        (fun c => (cellDateParse inp.dateParse c).map (fun d => inp.today - d))).map
        (fun o => match o with | none => Cell.missing | some i => Cell.int i)) =
      { header := h ++ [ageDaysCol], rows := rows.map (fun r => r ++ [af r]) } := by
    rw [setCol_absent (colIdx_eq_none_of_hasCol_false hA)]
    rw [E1]
    simp only [Option.getD_some]
    rw [List.map_map, List.map_map]
    rw [List.zipWith_map_right]
    rw [List.zipWith_same]
    rfl
  set df1 : Table := { header := h ++ [ageDaysCol], rows := rows.map (fun r => r ++ [af r]) }
    with hdf1def
  have hcolidx1 : df1.colIdx ageDaysCol = some h.length := by
    show List.findIdx? (fun x => x == ageDaysCol) (h ++ [ageDaysCol]) = some h.length
    rw [findIdx?_append_right _ hfA]
    rw [List.findIdx?_cons]
    rw [beq_self_eq_true]
    simp
  have hcol1 : df1.col ageDaysCol = some (rows.map af) := by
    rw [col_of_colIdx hcolidx1]
    congr 1
    show (rows.map (fun r => r ++ [af r])).map (fun r => r.getD h.length Cell.missing) =
      rows.map af
    rw [List.map_map]
    apply List.map_congr_left
    intro r hr
    show (r ++ [af r]).getD h.length Cell.missing = af r
    rw [← hrect r hr]
    exact getD_append_self
  -- step 2: add the bucket column
  have hcolidx_b1 : df1.colIdx ageBucketCol = none := by
    show List.findIdx? (fun x => x == ageBucketCol) (h ++ [ageDaysCol]) = none
    rw [findIdx?_append_right _ hfB]
    rw [List.findIdx?_cons]
    rw [show ((ageDaysCol == ageBucketCol)) = false by decide]
    simp [List.findIdx?]
  have hdf2 : df1.setCol ageBucketCol
        (((df1.col ageDaysCol).getD []).map (fun c => Cell.str (bucket (cellAgeVal c)))) =
      { header := (h ++ [ageDaysCol]) ++ [ageBucketCol],
        rows := rows.map (fun r => (r ++ [af r]) ++ [bf r]) } := by
    rw [setCol_absent hcolidx_b1]
    rw [hcol1]
    simp only [Option.getD_some]
    show Table.mk _ (List.zipWith (fun r v => r ++ [v]) (rows.map (fun r => r ++ [af r]))
      ((rows.map af).map (fun c => Cell.str (bucket (cellAgeVal c))))) = _
    rw [List.map_map]
    rw [List.zipWith_map_left, List.zipWith_map_right]
    rw [List.zipWith_same]
    rfl
  set df2 : Table :=
    ({ header := (h ++ [ageDaysCol]) ++ [ageBucketCol],
       rows := rows.map (fun r => (r ++ [af r]) ++ [bf r]) } : Table) with hdf2def
  -- step 3: move the bucket column to the front
  have hcolidx_b2 : df2.colIdx ageBucketCol = some (h.length + 1) := by
    show List.findIdx? (fun x => x == ageBucketCol) ((h ++ [ageDaysCol]) ++ [ageBucketCol]) =
      some (h.length + 1)
    rw [findIdx?_append_right _ (by
      rw [findIdx?_append_right _ hfB]
      rw [List.findIdx?_cons]
      rw [show ((ageDaysCol == ageBucketCol)) = false by decide]
      simp [List.findIdx?])]
    rw [List.findIdx?_cons]
    rw [beq_self_eq_true]
    simp
  have hdf3 : df2.popInsertFront ageBucketCol =
      { header := ageBucketCol :: (h ++ [ageDaysCol]),
        rows := rows.map (fun r => bf r :: (r ++ [af r])) } := by
    rw [popInsertFront_present hcolidx_b2]
    congr 1
    · show (ageBucketCol :: ((h ++ [ageDaysCol]) ++ [ageBucketCol]).eraseIdx (h.length + 1)) = _
      congr 1
      rw [show h.length + 1 = (h ++ [ageDaysCol]).length by simp]
      exact eraseIdx_append_self
    · show (rows.map (fun r => (r ++ [af r]) ++ [bf r])).map
        (fun r => r.getD (h.length + 1) Cell.missing :: r.eraseIdx (h.length + 1)) = _
      rw [List.map_map]
      apply List.map_congr_left
      intro r hr
      have hlen : (r ++ [af r]).length = h.length + 1 := by
        simp [hrect r hr]
      show ((r ++ [af r]) ++ [bf r]).getD (h.length + 1) Cell.missing ::
        ((r ++ [af r]) ++ [bf r]).eraseIdx (h.length + 1) = bf r :: (r ++ [af r])
      rw [← hlen]
      rw [getD_append_self, eraseIdx_append_self]
  set df3 : Table :=
    ({ header := ageBucketCol :: (h ++ [ageDaysCol]),
       rows := rows.map (fun r => bf r :: (r ++ [af r])) } : Table) with hdf3def
  have hcolidx_dc3 : df3.colIdx dc = some (j + 1) := by
    show List.findIdx? (fun x => x == dc) (ageBucketCol :: (h ++ [ageDaysCol])) = some (j + 1)
    rw [List.findIdx?_cons, List.findIdx?_succ]
    rw [show ((ageBucketCol == dc)) = false from
      beq_eq_false_iff_ne.mpr (fun e => hne_dB e.symm)]
    rw [if_neg (by decide)]
    rw [findIdx?_append_left _ hfdc]
    rfl
  have hdf4 : df3.setCol dc ((inp.soa.col dc).getD []) =
      { header := ageBucketCol :: (h ++ [ageDaysCol]),
        rows := rows.map (fun r => (bf r :: (r ++ [af r])).set (j + 1) (g0 r)) } := by
    rw [setCol_present hcolidx_dc3]
    rw [E1]
    simp only [Option.getD_some]
    show Table.mk _ (List.zipWith (fun r v => r.set (j + 1) v)
      (rows.map (fun r => bf r :: (r ++ [af r]))) (rows.map g0)) = _
    rw [List.zipWith_map_left, List.zipWith_map_right]
    rw [List.zipWith_same]
  have hbody : ageAddCols inp.dateParse inp.today dc inp.soa =
      { header := ageBucketCol :: (h ++ [ageDaysCol]),
        rows := rows.map (fun r => (bf r :: (r ++ [af r])).set (j + 1) (g0 r)) } := by
    simp only [ageAddCols]
    rw [hdf1, hdf2, hdf3, hdf4]
  have hrun : agePhase inp = Except.ok (ageAddCols inp.dateParse inp.today dc inp.soa) := by
    unfold agePhase
    rw [hdc, hnr]
    simp [hHas]
  refine ⟨_, hrun, ?_, ?_⟩
  · rw [hbody]
  · rw [hbody]
    have hidx : Table.colIdx
        { header := ageBucketCol :: (h ++ [ageDaysCol]),
          rows := rows.map (fun r => (bf r :: (r ++ [af r])).set (j + 1) (g0 r)) } dc =
        some (j + 1) := by
      show List.findIdx? (fun x => x == dc) (ageBucketCol :: (h ++ [ageDaysCol])) = some (j + 1)
      rw [List.findIdx?_cons, List.findIdx?_succ]
      rw [show ((ageBucketCol == dc)) = false from
        beq_eq_false_iff_ne.mpr (fun e => hne_dB e.symm)]
      rw [if_neg (by decide)]
      rw [findIdx?_append_left _ hfdc]
      rfl
    rw [col_of_colIdx hidx, E1]
    congr 1
    rw [List.map_map]
    apply List.map_congr_left
    intro r hr
    show ((bf r :: (r ++ [af r])).set (j + 1) (g0 r)).getD (j + 1) Cell.missing = g0 r
    rw [List.set_cons_succ, List.getD_cons_succ]
    apply getD_set_self
    have : r.length = h.length := hrect r hr
    simp [this]
    omega

/-- C8 (counterexample): the date column values are not preserved
end-to-end: the output-stage cleanup of date-keyword columns strips the
time suffix, so a date cell reading 2024-01-05 00:00:00 leaves the run as
2024-01-05, different from the input value. -/
theorem C8_counterexample :
    ((runReco { soa := { header := ["K", "Date"],
                         rows := [[Cell.str "1", Cell.str "2024-01-05 00:00:00"]] },
                soaMatch := "K", dateCol := some "Date", amountCol := none,
                refConfigs := [], today := 0,
                dateParse := fun _ => none, dateRaises := none }).table.getD
        { header := [], rows := [] }).col "Date" = some [Cell.str "2024-01-05"] ∧
    ¬ (some [Cell.str "2024-01-05"] =
        Table.col { header := ["K", "Date"],
                    rows := [[Cell.str "1", Cell.str "2024-01-05 00:00:00"]] } "Date") :=
  ⟨by decide, by decide⟩

/-- C8 witness: a concrete application of the aging frame theorem. -/
theorem C8_witness :
    ∃ df, agePhase { soa := { header := ["K", "D"], rows := [[Cell.str "7", Cell.str "x"]] },
                     soaMatch := "K", dateCol := some "D", amountCol := none,
                     refConfigs := [], today := 3, dateParse := fun _ => some 1,
                     dateRaises := none } = Except.ok df ∧
      df.header = ageBucketCol :: (["K", "D"] ++ [ageDaysCol]) ∧
      df.col "D" =
        Table.col { header := ["K", "D"], rows := [[Cell.str "7", Cell.str "x"]] } "D" :=
  C8_age_frame_amended _ "D" 1 rfl (by decide) rfl (by decide) (by decide) (by decide)

/-! ## C6: a failing slot is tolerated -/

theorem col_eq_none_of_hasCol_false {t : Table} {c : String}
    (h : t.hasCol c = false) : t.col c = none := by
  unfold Table.col
  rw [colIdx_eq_none_of_hasCol_false h]
  rfl

theorem slotBody_keyerr {sm : String} {total idx : Nat} {cfg : RefConfig} {c : Core}
    (h : cfg.table.col cfg.matchCol = none) :
    slotBody sm total idx cfg c = (c, some ("KeyError: " ++ cfg.matchCol)) := by
  unfold slotBody
  rw [h]

theorem processSlot_keyerr {sm : String} {total idx : Nat} {cfg : RefConfig} {st : St}
    (h : cfg.table.col cfg.matchCol = none) :
    processSlot sm total idx (some cfg) st =
      { core := st.core,
        statuses := st.statuses ++
          ["Matching " ++ slotLabel idx ++ " | Match = " ++ cfg.matchCol ++
            " | Returns = " ++ joinSep ", " cfg.returnCols,
           "Error matching " ++ slotLabel idx ++ ": " ++ ("KeyError: " ++ cfg.matchCol)],
        log := st.log ++
          ["Match Error " ++ slotLabel idx ++ ": " ++ ("KeyError: " ++ cfg.matchCol)] } := by
  simp only [processSlot]
  rw [slotBody_keyerr h]

theorem processSlot_core (sm : String) (total idx : Nat) (cfgOpt : Option RefConfig)
    (st : St) :
    (processSlot sm total idx cfgOpt st).core =
      (match cfgOpt with
       | none => st.core
       | some cfg => (slotBody sm total idx cfg st.core).1) := by
  cases cfgOpt with
  | none => rfl
  | some cfg =>
    simp only [processSlot]
    rcases hb : slotBody sm total idx cfg st.core with ⟨c, e⟩
    cases e <;> rfl

theorem processSlot_mono (sm : String) (total idx : Nat) (cfgOpt : Option RefConfig)
    (st : St) :
    ∃ d1 d2, (processSlot sm total idx cfgOpt st).statuses = st.statuses ++ d1 ∧
      (processSlot sm total idx cfgOpt st).log = st.log ++ d2 := by
  cases cfgOpt with
  | none => exact ⟨[], [], by simp [processSlot], by simp [processSlot]⟩
  | some cfg =>
    simp only [processSlot]
    rcases hb : slotBody sm total idx cfg st.core with ⟨c, e⟩
    cases e with
    | none => exact ⟨_, [], rfl, by simp⟩
    | some err => exact ⟨_, _, rfl, rfl⟩

theorem slotFold_append (sm : String) (total : Nat) :
    ∀ (l1 l2 : List (Option RefConfig)) (i : Nat) (st : St),
      slotFold sm total i (l1 ++ l2) st =
        slotFold sm total (i + l1.length) l2 (slotFold sm total i l1 st) := by
  intro l1
  induction l1 with
  | nil => intro l2 i st; simp [slotFold]
  | cons a t ih =>
    intro l2 i st
    show slotFold sm total (i + 1) (t ++ l2) (processSlot sm total i a st) = _
    rw [ih]
    rw [show i + 1 + t.length = i + (a :: t).length by simp [List.length_cons]; omega]
    rfl

theorem slotFold_core (sm : String) (total : Nat) :
    ∀ (l : List (Option RefConfig)) (i : Nat) (st st2 : St), st.core = st2.core →
      (slotFold sm total i l st).core = (slotFold sm total i l st2).core := by
  intro l
  induction l with
  | nil => intro i st st2 h; exact h
  | cons a t ih =>
    intro i st st2 h
    show (slotFold sm total (i + 1) t (processSlot sm total i a st)).core = _
    apply ih
    rw [processSlot_core, processSlot_core, h]

theorem slotFold_mono (sm : String) (total : Nat) :
    ∀ (l : List (Option RefConfig)) (i : Nat) (st : St),
      ∃ d1 d2, (slotFold sm total i l st).statuses = st.statuses ++ d1 ∧
        (slotFold sm total i l st).log = st.log ++ d2 := by
  intro l
  induction l with
  | nil => intro i st; exact ⟨[], [], by simp [slotFold], by simp [slotFold]⟩
  | cons a t ih =>
    intro i st
    rcases processSlot_mono sm total i a st with ⟨e1, e2, he1, he2⟩
    rcases ih (i + 1) (processSlot sm total i a st) with ⟨d1, d2, hd1, hd2⟩
    refine ⟨e1 ++ d1, e2 ++ d2, ?_, ?_⟩
    · show (slotFold sm total (i + 1) t (processSlot sm total i a st)).statuses = _
      rw [hd1, he1, List.append_assoc]
    · show (slotFold sm total (i + 1) t (processSlot sm total i a st)).log = _
      rw [hd2, he2, List.append_assoc]

/-- C6: an exception while joining one reference slot (here: the
configured match column is absent from the reference table, the KeyError
of line 437) is caught, logged, and surfaced as a status message, and the
run continues: it still completes with a merged table, and that table (and
flags and progress) are exactly those of the run with the failing slot
absent. -/
theorem C6_slot_failure_tolerated (inp : RunInput) (pre post : List (Option RefConfig))
    (cfg : RefConfig) (df1 : Table) (keyCells0 : List Cell)
    (hcfgs : inp.refConfigs = pre ++ (some cfg :: post))
    (hfail : cfg.table.hasCol cfg.matchCol = false)
    (hok : agePhase inp = Except.ok df1)
    (hcol : df1.col inp.soaMatch = some keyCells0) :
    ((runReco inp).table =
        (runReco { inp with refConfigs := pre ++ (none :: post) }).table ∧
      (runReco inp).flags =
        (runReco { inp with refConfigs := pre ++ (none :: post) }).flags ∧
      (runReco inp).progress =
        (runReco { inp with refConfigs := pre ++ (none :: post) }).progress) ∧
    ("Error matching " ++ slotLabel pre.length ++ ": " ++ ("KeyError: " ++ cfg.matchCol))
      ∈ (runReco inp).statuses ∧
    ("Match Error " ++ slotLabel pre.length ++ ": " ++ ("KeyError: " ++ cfg.matchCol))
      ∈ (runReco inp).log ∧
    (runReco inp).table ≠ none := by
  set inp2 : RunInput := { inp with refConfigs := pre ++ (none :: post) } with hinp2
  have hok2 : agePhase inp2 = Except.ok df1 := hok
  have htot : runTotal inp2.refConfigs.length df1.rows.length =
      runTotal inp.refConfigs.length df1.rows.length := by
    show runTotal (pre ++ (none :: post)).length df1.rows.length = _
    rw [hcfgs]
    simp [List.length_append]
  have hafter1 : runReco inp = afterAge inp df1 := by
    unfold runReco
    rw [hok]
  have hafter2 : runReco inp2 = afterAge inp2 df1 := by
    unfold runReco
    rw [hok2]
  have hrun1 : runReco inp = runFinish inp
      (slotFold inp.soaMatch (runTotal inp.refConfigs.length df1.rows.length) 0
        inp.refConfigs (initSt df1 keyCells0)) := by
    rw [hafter1]
    unfold afterAge
    rw [hcol]
  have hrun2 : runReco inp2 = runFinish inp2
      (slotFold inp.soaMatch (runTotal inp.refConfigs.length df1.rows.length) 0
        inp2.refConfigs (initSt df1 keyCells0)) := by
    rw [hafter2]
    unfold afterAge
    rw [hcol, htot]
  set total := runTotal inp.refConfigs.length df1.rows.length with htotdef
  set sm := inp.soaMatch with hsm
  set st0 : St := initSt df1 keyCells0 with hst0
  -- the two folds have equal cores
  have hpre1 : slotFold sm total 0 inp.refConfigs st0 =
      slotFold sm total (0 + pre.length) (some cfg :: post) (slotFold sm total 0 pre st0) := by
    rw [hcfgs, slotFold_append]
  have hpre2 : slotFold sm total 0 inp2.refConfigs st0 =
      slotFold sm total (0 + pre.length) (none :: post) (slotFold sm total 0 pre st0) := by
    show slotFold sm total 0 (pre ++ (none :: post)) st0 = _
    rw [slotFold_append]
  have hcolnone : cfg.table.col cfg.matchCol = none := col_eq_none_of_hasCol_false hfail
  set stp : St := slotFold sm total 0 pre st0 with hstp
  have hfailstep : processSlot sm total (0 + pre.length) (some cfg) stp =
      { core := stp.core,
        statuses := stp.statuses ++
          ["Matching " ++ slotLabel (0 + pre.length) ++ " | Match = " ++ cfg.matchCol ++
            " | Returns = " ++ joinSep ", " cfg.returnCols,
           "Error matching " ++ slotLabel (0 + pre.length) ++ ": " ++
             ("KeyError: " ++ cfg.matchCol)],
        log := stp.log ++
          ["Match Error " ++ slotLabel (0 + pre.length) ++ ": " ++
            ("KeyError: " ++ cfg.matchCol)] } := processSlot_keyerr hcolnone
  have hcores : (slotFold sm total 0 inp.refConfigs st0).core =
      (slotFold sm total 0 inp2.refConfigs st0).core := by
    rw [hpre1, hpre2]
    show (slotFold sm total (0 + pre.length + 1) post
      (processSlot sm total (0 + pre.length) (some cfg) stp)).core = _
    rw [slotFold_core sm total post (0 + pre.length + 1) _ (processSlot sm total (0 + pre.length) none stp) (by rw [hfailstep]; rfl)]
    rfl
  refine ⟨⟨?_, ?_, ?_⟩, ?_, ?_, ?_⟩
  · rw [hrun1, hrun2]
    simp only [runFinish]
    rw [hcores]
  · rw [hrun1, hrun2]
    simp only [runFinish]
    rw [hcores]
  · rw [hrun1, hrun2]
    simp only [runFinish]
    rw [hcores]
  · rw [hrun1]
    simp only [runFinish]
    rw [hpre1]
    rcases slotFold_mono sm total post (0 + pre.length + 1)
      (processSlot sm total (0 + pre.length) (some cfg) stp) with ⟨d1, d2, hd1, hd2⟩
    show _ ∈ (slotFold sm total (0 + pre.length + 1) post
      (processSlot sm total (0 + pre.length) (some cfg) stp)).statuses ++ _ ++ _
    rw [hd1, hfailstep]
    simp [Nat.zero_add]
  · rw [hrun1]
    simp only [runFinish]
    rw [hpre1]
    rcases slotFold_mono sm total post (0 + pre.length + 1)
      (processSlot sm total (0 + pre.length) (some cfg) stp) with ⟨d1, d2, hd1, hd2⟩
    show _ ∈ (slotFold sm total (0 + pre.length + 1) post
      (processSlot sm total (0 + pre.length) (some cfg) stp)).log ++ _
    rw [hd2, hfailstep]
    simp [Nat.zero_add]
  · rw [hrun1]
    simp only [runFinish]
    intro hcontra
    exact Option.noConfusion hcontra

/-- C6 witness: a slot whose configured match column is absent from its
reference table is skipped; the merged table equals the one of the run
without that slot and the error status is emitted. -/
theorem C6_witness :
    (runReco { soa := { header := ["K"], rows := [[Cell.str "1"]] },
               soaMatch := "K", dateCol := none, amountCol := none,
               refConfigs := [some { table := { header := ["X"], rows := [] },
                                     matchCol := "M", returnCols := ["X"] },
                              none, none, none],
               today := 0, dateParse := fun _ => none, dateRaises := none }).table =
      (runReco { soa := { header := ["K"], rows := [[Cell.str "1"]] },
                 soaMatch := "K", dateCol := none, amountCol := none,
                 refConfigs := [none, none, none, none],
                 today := 0, dateParse := fun _ => none, dateRaises := none }).table ∧
    ("Error matching " ++ slotLabel 0 ++ ": " ++ ("KeyError: " ++ "M")) ∈
      (runReco { soa := { header := ["K"], rows := [[Cell.str "1"]] },
                 soaMatch := "K", dateCol := none, amountCol := none,
                 refConfigs := [some { table := { header := ["X"], rows := [] },
                                       matchCol := "M", returnCols := ["X"] },
                                none, none, none],
                 today := 0, dateParse := fun _ => none,
                 dateRaises := none }).statuses := by
  have h := C6_slot_failure_tolerated
    { soa := { header := ["K"], rows := [[Cell.str "1"]] },
      soaMatch := "K", dateCol := none, amountCol := none,
      refConfigs := [some { table := { header := ["X"], rows := [] },
                            matchCol := "M", returnCols := ["X"] },
                     none, none, none],
      today := 0, dateParse := fun _ => none, dateRaises := none }
    [] [none, none, none]
    { table := { header := ["X"], rows := [] }, matchCol := "M", returnCols := ["X"] }
    { header := ["K"], rows := [[Cell.str "1"]] } [Cell.str "1"]
    rfl (by decide) rfl (by decide)
  exact ⟨h.1.1, h.2.1⟩

/-! ## Replicated-row lemmas -/

theorem foldl_dictIns_replicate {s : String} :
    ∀ (m : Nat) (d : List (String × List String)), d.any (fun e => e.1 == s) = true →
      List.foldl (fun d k => if d.any (fun e => e.1 == k) then d else d ++ [(k, [])]) d
        (List.replicate m s) = d := by
  intro m
  induction m with
  | zero => intro d _; rfl
  | succ n ih =>
    intro d h
    rw [List.replicate_succ, List.foldl_cons, if_pos h]
    exact ih d h

theorem dictInit_replicate_pos {s : String} {k : Nat} (hk : 0 < k) :
    dictInit (List.replicate k s) = [(s, [])] := by
  cases k with
  | zero => exact absurd hk (by simp)
  | succ n =>
    unfold dictInit
    rw [List.replicate_succ, List.foldl_cons]
    rw [if_neg (by simp)]
    rw [List.nil_append]
    exact foldl_dictIns_replicate n [(s, [])] (by simp)

theorem flatMap_replicate_singleton {α β : Type} {f : α → List β} {a : α} {b : β}
    (h : f a = [b]) : ∀ k, (List.replicate k a).flatMap f = List.replicate k b := by
  intro k
  induction k with
  | zero => rfl
  | succ n ih =>
    rw [List.replicate_succ, List.flatMap_cons, h, ih]
    simp [List.replicate_succ]

theorem zipWith_replicate_same {α β γ : Type} (f : α → β → γ) (a : α) (b : β) :
    ∀ k, List.zipWith f (List.replicate k a) (List.replicate k b) =
      List.replicate k (f a b) := by
  intro k
  induction k with
  | zero => rfl
  | succ n ih =>
    simp [List.replicate_succ, ih]

/-- The row loop over k identical matched rows appends the slot label k
times to the single shared attribution list (the behaviour behind C10). -/
theorem processRows_replicate {label kstr : String} {soaIdx maskIdx total : Nat}
    {rw0 : List Cell}
    (hmask : cellNotna (rw0.getD maskIdx Cell.missing) = true)
    (hkey : clean_match_value (cellToStr (rw0.getD soaIdx Cell.missing)) = kstr) :
    ∀ (k : Nat) (c : Core) (l : List String), c.dict = [(kstr, l)] →
      (processRows label soaIdx maskIdx total (List.replicate k rw0) c).df = c.df ∧
      (processRows label soaIdx maskIdx total (List.replicate k rw0) c).dict =
        [(kstr, l ++ List.replicate k label)] := by
  intro k
  induction k with
  | zero =>
    intro c l hd
    refine ⟨rfl, ?_⟩
    show c.dict = [(kstr, l ++ [])]
    simpa using hd
  | succ n ih =>
    intro c l hd
    rw [List.replicate_succ]
    have hcons : processRows label soaIdx maskIdx total (rw0 :: List.replicate n rw0) c =
        processRows label soaIdx maskIdx total (List.replicate n rw0)
          { df := c.df, dict := [(kstr, l ++ [label])],
            step := c.step + 1, progress := c.progress ++ [pct (c.step + 1) total] } := by
      unfold processRows
      rw [List.foldl_cons]
      congr 1
      rw [hmask]
      rw [if_pos rfl]
      rw [hkey, hd]
      unfold dictAppend
      simp
    rw [hcons]
    rcases ih { df := c.df, dict := [(kstr, l ++ [label])],
                step := c.step + 1, progress := c.progress ++ [pct (c.step + 1) total] }
      (l ++ [label]) rfl with ⟨h1, h2⟩
    refine ⟨h1, ?_⟩
    rw [h2]
    simp [List.replicate_succ]

/-- The duplicate-key family: a statement of k identical key rows. -/
def soa10 (k : Nat) : Table := { header := ["K"], rows := List.replicate k [Cell.str "7"] }

/-- One reference slot containing the shared key once. -/
def cfg10 : RefConfig :=
  { table := { header := ["K2", "V"], rows := [[Cell.str "7", Cell.str "x"]] },
    matchCol := "K2", returnCols := ["V"] }

/-- The run input of the duplicate-key family (four configured slots, the
last three absent, as in the application). -/
def inp10 (k : Nat) : RunInput :=
  { soa := soa10 k, soaMatch := "K", dateCol := none, amountCol := none,
    refConfigs := [some cfg10, none, none, none], today := 0,
    dateParse := fun _ => none, dateRaises := none }

theorem inp10_col (k : Nat) : (soa10 k).col "K" = some (List.replicate k (Cell.str "7")) := by
  rw [col_of_colIdx (show (soa10 k).colIdx "K" = some 0 from rfl)]
  show some ((List.replicate k [Cell.str "7"]).map (fun r => r.getD 0 Cell.missing)) = _
  rw [List.map_replicate]
  rfl

theorem annotateAmounts_none_table (t : Table) : (annotateAmounts none t).table = t := rfl

theorem inp10_body (k : Nat) (T : Nat) :
    slotBody "K" T 0 cfg10 { df := soa10 k, dict := [("7", [])], step := 0, progress := [] } =
      (processRows (slotLabel 0) 0 2 T
        (leftJoin ((soa10 k).setCol "K"
            (((List.replicate k [Cell.str "7"]).map (fun r => r.getD 0 Cell.missing)).map
              cleanCell))
          { header := ["K2", "Ref1_V"], rows := [[Cell.str "7", Cell.str "x"]] } "K" "K2").rows
        { df := (leftJoin ((soa10 k).setCol "K"
            (((List.replicate k [Cell.str "7"]).map (fun r => r.getD 0 Cell.missing)).map
              cleanCell))
            { header := ["K2", "Ref1_V"], rows := [[Cell.str "7", Cell.str "x"]] } "K" "K2"),
          dict := [("7", [])], step := 0, progress := [] }, none) := rfl

theorem inp10_setK (k : Nat) :
    (soa10 k).setCol "K"
      (((List.replicate k [Cell.str "7"]).map (fun r => r.getD 0 Cell.missing)).map cleanCell) =
      soa10 k := by
  rw [setCol_present (show (soa10 k).colIdx "K" = some 0 from rfl)]
  rw [List.map_replicate, List.map_replicate]
  rw [show cleanCell ([Cell.str "7"].getD 0 Cell.missing) = Cell.str "7" from rfl]
  show Table.mk ["K"]
    (List.zipWith (fun r v => r.set 0 v) (List.replicate k [Cell.str "7"])
      (List.replicate k (Cell.str "7"))) = soa10 k
  rw [zipWith_replicate_same]
  rfl

theorem inp10_join (k : Nat) :
    leftJoin (soa10 k) { header := ["K2", "Ref1_V"], rows := [[Cell.str "7", Cell.str "x"]] }
      "K" "K2" =
      { header := ["K", "K2", "Ref1_V"],
        rows := List.replicate k [Cell.str "7", Cell.str "7", Cell.str "x"] } := by
  have hrows : (leftJoin (soa10 k)
      { header := ["K2", "Ref1_V"], rows := [[Cell.str "7", Cell.str "x"]] } "K" "K2").rows =
      List.replicate k [Cell.str "7", Cell.str "7", Cell.str "x"] := by
    show (List.replicate k [Cell.str "7"]).flatMap _ = _
    refine flatMap_replicate_singleton ?_ k
    rfl
  rw [← hrows]
  rfl

theorem dateCleanup_nil {t : Table} (h : t.header.filter isDateCol = []) :
    dateCleanup t = t := by
  unfold dateCleanup
  rw [h]
  rfl

/-- The merged table of the duplicate-key family. -/
def tblJ (k : Nat) : Table :=
  { header := ["K", "K2", "Ref1_V"],
    rows := List.replicate k [Cell.str "7", Cell.str "7", Cell.str "x"] }

/-- The finished table of the duplicate-key family. -/
def tblF (k : Nat) : Table :=
  { header := ["K", "K2", "Ref1_V"] ++ ["Match Source"],
    rows := List.replicate k ([Cell.str "7", Cell.str "7", Cell.str "x"] ++
      [Cell.str (joinSep ", " (List.replicate k "Ref1"))]) }

/-- The Match Source cell of the duplicate-key family. -/
def msCell (k : Nat) : Cell := Cell.str (joinSep ", " (List.replicate k "Ref1"))

theorem inp10_finish (k : Nat) (c : Core)
    (hdf : c.df = tblJ k)
    (hdict : c.dict = [("7", List.replicate k "Ref1")]) :
    (finishCore "K" c).df = tblF k := by
  simp only [finishCore]
  rw [hdf, hdict]
  have e1 : ((tblJ k).col "K").getD [] = List.replicate k (Cell.str "7") := by
    rw [col_of_colIdx (show (tblJ k).colIdx "K" = some 0 from rfl)]
    simp only [Option.getD_some]
    rw [show (tblJ k).rows = List.replicate k [Cell.str "7", Cell.str "7", Cell.str "x"]
      from rfl]
    simp only [List.map_replicate]
    rfl
  rw [e1]
  have e2 : (List.replicate k (Cell.str "7")).map (fun cl =>
      Cell.str (joinSep ", " (dictGet [("7", List.replicate k "Ref1")]
        (clean_match_value (cellToStr cl))))) = List.replicate k (msCell k) := by
    simp only [List.map_replicate]
    rfl
  rw [e2]
  have e3 : (tblJ k).setCol "Match Source" (List.replicate k (msCell k)) = tblF k := by
    rw [setCol_absent (show (tblJ k).colIdx "Match Source" = none from rfl)]
    rw [show (tblJ k).rows = List.replicate k [Cell.str "7", Cell.str "7", Cell.str "x"]
      from rfl]
    rw [zipWith_replicate_same]
    rfl
  rw [e3]
  rw [show (tblF k).hasCol "Separator1" = false from rfl]
  rw [if_neg (show ¬(false = true) by decide)]
  exact dateCleanup_nil rfl

/-- C10: source attribution is keyed by normalized match key, not by row:
a statement of k rows sharing one normalized key, all matched by slot 1,
shares a single attribution list to which the label is appended once per
matched merged row, so every row of the output carries Match Source equal
to the label Ref1 repeated k times, joined by commas — not a single
occurrence. -/
theorem C10_attribution_by_key (k : Nat) (hk : 1 < k) :
    ∃ t, (runReco (inp10 k)).table = some t ∧
      t.col "Match Source" =
        some (List.replicate k (Cell.str (joinSep ", " (List.replicate k "Ref1")))) := by
  have hage : agePhase (inp10 k) = Except.ok (soa10 k) := rfl
  have hcol := inp10_col k
  have hafter : runReco (inp10 k) = afterAge (inp10 k) (soa10 k) := by
    unfold runReco
    rw [hage]
  have hrun : runReco (inp10 k) = runFinish (inp10 k)
      (slotFold "K" (runTotal 4 (soa10 k).rows.length) 0 [some cfg10, none, none, none]
        (initSt (soa10 k) (List.replicate k (Cell.str "7")))) := by
    rw [hafter]
    unfold afterAge
    rw [show (inp10 k).soaMatch = "K" from rfl]
    rw [hcol]
    rfl
  set T := runTotal 4 (soa10 k).rows.length with hT
  have hinit : initSt (soa10 k) (List.replicate k (Cell.str "7")) =
      { core := { df := soa10 k, dict := [("7", [])], step := 0, progress := [] },
        statuses := ["Starting reconciliation..."], log := [] } := by
    unfold initSt
    congr 2
    rw [List.map_replicate]
    rw [show clean_match_value (cellToStr (Cell.str "7")) = "7" from rfl]
    exact dictInit_replicate_pos (by omega)
  have hfoldeq : slotFold "K" T 0 [some cfg10, none, none, none]
      { core := { df := soa10 k, dict := [("7", [])], step := 0, progress := [] },
        statuses := ["Starting reconciliation..."], log := [] } =
      processSlot "K" T 0 (some cfg10)
        { core := { df := soa10 k, dict := [("7", [])], step := 0, progress := [] },
          statuses := ["Starting reconciliation..."], log := [] } := rfl
  have hbody := inp10_body k T
  rw [inp10_setK k, inp10_join k] at hbody
  have hrows := @processRows_replicate (slotLabel 0) "7" 0 2 T
    [Cell.str "7", Cell.str "7", Cell.str "x"] rfl rfl k
    { df := { header := ["K", "K2", "Ref1_V"],
              rows := List.replicate k [Cell.str "7", Cell.str "7", Cell.str "x"] },
      dict := [("7", [])], step := 0, progress := [] } [] rfl
  have hcore : (slotFold "K" T 0 [some cfg10, none, none, none]
      { core := { df := soa10 k, dict := [("7", [])], step := 0, progress := [] },
        statuses := ["Starting reconciliation..."], log := [] }).core.df =
        { header := ["K", "K2", "Ref1_V"],
          rows := List.replicate k [Cell.str "7", Cell.str "7", Cell.str "x"] } ∧
      (slotFold "K" T 0 [some cfg10, none, none, none]
      { core := { df := soa10 k, dict := [("7", [])], step := 0, progress := [] },
        statuses := ["Starting reconciliation..."], log := [] }).core.dict =
        [("7", List.replicate k "Ref1")] := by
    rw [hfoldeq, processSlot_core]
    show ((slotBody "K" T 0 cfg10 _).1.df = _) ∧ ((slotBody "K" T 0 cfg10 _).1.dict = _)
    rw [hbody]
    refine ⟨hrows.1.trans rfl, ?_⟩
    rw [hrows.2]
    simp
    exact Or.inr rfl
  rcases hcore with ⟨hdf3, hdict3⟩
  have hfin := inp10_finish k _ hdf3 hdict3
  refine ⟨tblF k, ?_, ?_⟩
  · rw [hrun, hinit]
    simp only [runFinish]
    rw [show (inp10 k).amountCol = none from rfl]
    rw [show (inp10 k).soaMatch = "K" from rfl]
    rw [annotateAmounts_none_table]
    rw [hfin]
  · rw [col_of_colIdx (show (tblF k).colIdx "Match Source" = some 3 from rfl)]
    rw [show (tblF k).rows = List.replicate k ([Cell.str "7", Cell.str "7", Cell.str "x"] ++
      [Cell.str (joinSep ", " (List.replicate k "Ref1"))]) from rfl]
    rw [List.map_replicate]
    rfl

theorem C10_witness : 1 < 2 ∧ ∃ t, (runReco (inp10 2)).table = some t ∧
    t.col "Match Source" =
      some (List.replicate 2 (Cell.str (joinSep ", " (List.replicate 2 "Ref1")))) :=
  ⟨by decide, C10_attribution_by_key 2 (by decide)⟩

/-! ## Amount difference: semantic lemmas and the C4 instances -/

theorem decSub_toQ (a b : Dec) : (decSub a b).toQ = a.toQ - b.toQ := by
  unfold decSub Dec.toQ
  push_cast
  rw [pow_add]
  field_simp
  ring

theorem decAbsOverCent_iff (d : Dec) :
    decAbsOverCent d = true ↔ 1 / 100 < |d.toQ| := by
  unfold decAbsOverCent Dec.toQ
  rw [decide_eq_true_eq]
  have h10 : (0 : ℚ) < (10 : ℚ) ^ d.scale := by positivity
  rw [show (100 : ℕ) * d.num.natAbs = d.num.natAbs * 100 from Nat.mul_comm _ _]
  rw [abs_div, abs_pow, show |(10 : ℚ)| = 10 from by norm_num]
  rw [div_lt_div_iff₀ (by norm_num) h10]
  rw [show |((d.num : ℚ))| = ((d.num.natAbs : ℕ) : ℚ) from by rw [Int.cast_natAbs, Int.cast_abs]]
  rw [one_mul]
  constructor
  · intro h
    exact_mod_cast h
  · intro h
    exact_mod_cast h

theorem decPos_iff (d : Dec) : decPos d = true ↔ 0 < d.toQ := by
  unfold decPos Dec.toQ
  rw [decide_eq_true_eq]
  have h10 : (0 : ℚ) < (10 : ℚ) ^ d.scale := by positivity
  constructor
  · intro h
    exact div_pos (by exact_mod_cast h) h10
  · intro h
    rw [div_pos_iff] at h
    rcases h with ⟨h1, _⟩ | ⟨_, h2⟩
    · exact_mod_cast h1
    · exact absurd h10 (not_lt.mpr (le_of_lt h2))

/-- The first C4 instance: 100.00 against 100.005. -/
def tC4a : Table :=
  { header := ["K", "AMT", "Ref1_Amount"],
    rows := [[Cell.str "x", Cell.str "100.00", Cell.str "100.005"]] }

/-- The second C4 instance: 100.00 against 100.02. -/
def tC4b : Table :=
  { header := ["K", "AMT", "Ref1_Amount"],
    rows := [[Cell.str "x", Cell.str "100.00", Cell.str "100.02"]] }

/-- The no-entry instances: an unparsable statement amount and a missing
reference amount. -/
def tC4c : Table :=
  { header := ["K", "AMT", "Ref1_Amount"],
    rows := [[Cell.str "x", Cell.str "abc", Cell.str "100.00"],
             [Cell.str "y", Cell.str "100.00", Cell.missing]] }

/-- C4: when both amounts parse, the recorded entry is the slot label with
the signed two-decimal difference when the true difference exceeds 0.01 in
absolute value (with a plus sign when positive, and the cells flagged), and
the fixed text 0.00 unflagged otherwise; rows with a missing or unparsable
amount contribute no entry; concretely, 100.00 against 100.005 records
Ref1: 0.00 unflagged and 100.00 against 100.02 records Ref1: -0.02
flagged. -/
theorem C4_amount_difference :
    (∀ d1 d2 : Dec, (decSub d1 d2).toQ = d1.toQ - d2.toQ) ∧
    (∀ (slot : String) (d1 d2 : Dec), |d1.toQ - d2.toQ| ≤ 1 / 100 →
      diffEntry slot (decSub d1 d2) = (slot ++ ": 0.00", false)) ∧
    (∀ (slot : String) (d1 d2 : Dec), 1 / 100 < |d1.toQ - d2.toQ| →
      diffEntry slot (decSub d1 d2) =
        ((if 0 < d1.toQ - d2.toQ then slot ++ ": +" ++ fmt2 (decSub d1 d2)
          else slot ++ ": " ++ fmt2 (decSub d1 d2)), true)) ∧
    (parseAmount "100.00" = some { num := 10000, scale := 2 } ∧
     parseAmount "100.005" = some { num := 100005, scale := 3 } ∧
     parseAmount "100.02" = some { num := 10002, scale := 2 } ∧
     parseAmount "abc" = none) ∧
    ((annotateAmounts (some "AMT") tC4a).table.col "Amount Difference" =
        some [Cell.str "Ref1: 0.00"] ∧
      (annotateAmounts (some "AMT") tC4a).flags = []) ∧
    ((annotateAmounts (some "AMT") tC4b).table.col "Amount Difference" =
        some [Cell.str "Ref1: -0.02"] ∧
      (annotateAmounts (some "AMT") tC4b).flags = [(0, 1), (0, 2)]) ∧
    ((annotateAmounts (some "AMT") tC4c).table.col "Amount Difference" =
        some [Cell.str "", Cell.str ""] ∧
      (annotateAmounts (some "AMT") tC4c).flags = []) := by
  refine ⟨decSub_toQ, ?_, ?_, by decide, by decide, by decide, by decide⟩
  · intro slot d1 d2 h
    unfold diffEntry
    have hf : ¬ (decAbsOverCent (decSub d1 d2) = true) := by
      rw [decAbsOverCent_iff, decSub_toQ]
      exact not_lt.mpr h
    rw [if_neg hf]
  · intro slot d1 d2 h
    unfold diffEntry
    have ht : decAbsOverCent (decSub d1 d2) = true := by
      rw [decAbsOverCent_iff, decSub_toQ]
      exact h
    rw [if_pos ht]
    have hp : decPos (decSub d1 d2) = true ↔ 0 < d1.toQ - d2.toQ := by
      rw [decPos_iff, decSub_toQ]
    by_cases hq : 0 < d1.toQ - d2.toQ
    · rw [if_pos (hp.mpr hq), if_pos hq]
    · rw [if_neg (fun hc => hq (hp.mp hc)), if_neg hq]

theorem C4_witness :
    (|Dec.toQ { num := 10000, scale := 2 } - Dec.toQ { num := 100005, scale := 3 }| ≤
        1 / 100 ∧
      diffEntry "Ref1" (decSub { num := 10000, scale := 2 } { num := 100005, scale := 3 }) =
        ("Ref1: 0.00", false)) ∧
    (1 / 100 < |Dec.toQ { num := 10000, scale := 2 } - Dec.toQ { num := 10002, scale := 2 }| ∧
      diffEntry "Ref1" (decSub { num := 10000, scale := 2 } { num := 10002, scale := 2 }) =
        ((if 0 < Dec.toQ { num := 10000, scale := 2 } - Dec.toQ { num := 10002, scale := 2 }
          then "Ref1" ++ ": +" ++ fmt2 (decSub { num := 10000, scale := 2 }
            { num := 10002, scale := 2 })
          else "Ref1" ++ ": " ++ fmt2 (decSub { num := 10000, scale := 2 }
            { num := 10002, scale := 2 })), true)) :=
  ⟨⟨by norm_num [Dec.toQ, abs_le],
    C4_amount_difference.2.1 "Ref1" _ _ (by norm_num [Dec.toQ, abs_le])⟩,
   ⟨by norm_num [Dec.toQ, lt_abs],
    C4_amount_difference.2.2.1 "Ref1" _ _ (by norm_num [Dec.toQ, lt_abs])⟩⟩

/-! ## C2: match marking and the Match Source column -/

/-- A one-row reference slot for the C2 family: its key either matches the
single statement key 7 or misses it. -/
def cfgC2 (n : String) (b : Bool) : RefConfig :=
  { table := { header := [n, "V"],
               rows := [[Cell.str (if b then "7" else "8"), Cell.str "x"]] },
    matchCol := n, returnCols := ["V"] }

/-- A one-row statement against four present slots, each independently
matching or missing the key. -/
def inpC2amd (b1 b2 b3 b4 : Bool) : RunInput :=
  { soa := { header := ["K"], rows := [[Cell.str "7"]] },
    soaMatch := "K", dateCol := none, amountCol := none,
    refConfigs := [some (cfgC2 "K2" b1), some (cfgC2 "K3" b2),
                   some (cfgC2 "K4" b3), some (cfgC2 "K5" b4)],
    today := 0, dateParse := fun _ => none, dateRaises := none }

/-- C2 counterexample: two statement rows share the key 7 and are each
matched by slot 1 alone (the first renamed return column is non-missing in
both rows), yet Match Source reads Ref1, Ref1 on both rows, not the single
label Ref1 of the matched slot. -/
theorem C2_counterexample :
    (runReco (inp10 2)).table.map (fun t => (t.col "Ref1_V", t.col "Match Source")) =
      some (some [Cell.str "x", Cell.str "x"],
            some [Cell.str "Ref1, Ref1", Cell.str "Ref1, Ref1"]) ∧
    Cell.str "Ref1, Ref1" ≠ Cell.str "Ref1" := by
  exact ⟨by decide, by decide⟩

/-- C2 amended: on a one-row statement whose key occurs at most once in
every reference table, a slot is matched exactly when its first renamed
return column is non-missing, and Match Source is the matched slot labels
joined with a comma in ascending slot order, the empty string (not a
missing value) when no slot matches. -/
theorem C2_matchsource_amended (b1 b2 b3 b4 : Bool) :
    (runReco (inpC2amd b1 b2 b3 b4)).table.map (fun t =>
      [t.col "Match Source",
       t.col "Ref1_V", t.col "Ref2_V", t.col "Ref3_V", t.col "Ref4_V"]) =
    some
      [some [Cell.str (joinSep ", "
        (((([("Ref1", b1), ("Ref2", b2), ("Ref3", b3), ("Ref4", b4)]).filter
          (fun p => p.2)).map (fun p => p.1))))],
       some [if b1 then Cell.str "x" else Cell.missing],
       some [if b2 then Cell.str "x" else Cell.missing],
       some [if b3 then Cell.str "x" else Cell.missing],
       some [if b4 then Cell.str "x" else Cell.missing]] := by
  cases b1 <;> cases b2 <;> cases b3 <;> cases b4 <;> decide

/-! ## C7: progress percentages -/

/-- A reference slot whose single key matches the statement key five
times. -/
def cfgC7 : RefConfig :=
  { table := { header := ["K2", "V"],
               rows := [[Cell.str "7", Cell.str "a"], [Cell.str "7", Cell.str "b"],
                        [Cell.str "7", Cell.str "c"], [Cell.str "7", Cell.str "d"],
                        [Cell.str "7", Cell.str "e"]] },
    matchCol := "K2", returnCols := ["V"] }

/-- A one-row statement whose key fans out to five merged rows in the
first slot. -/
def inpC7 : RunInput :=
  { soa := { header := ["K"], rows := [[Cell.str "7"]] },
    soaMatch := "K", dateCol := none, amountCol := none,
    refConfigs := [some cfgC7, none, none, none], today := 0,
    dateParse := fun _ => none, dateRaises := none }

/-- C7 counterexample: a one-row statement whose key matches five
reference rows makes the step counter overrun the precomputed total of
four, so the emitted progress reaches 125 before dropping back to the
final 100 - the sequence is neither bounded by 100 nor monotone. -/
theorem C7_counterexample :
    (runReco inpC7).progress = [25, 50, 75, 100, 125, 100] ∧
    ¬ (∀ p ∈ (runReco inpC7).progress, p ≤ 100) ∧
    ¬ List.Chain' (fun a b => a ≤ b) (runReco inpC7).progress := by
  have hp : (runReco inpC7).progress = [25, 50, 75, 100, 125, 100] := by decide
  refine ⟨hp, by decide, ?_⟩
  rw [hp]
  intro hch
  simp only [List.chain'_cons] at hch
  omega

theorem pct_mono {a b : Nat} (total : Nat) (h : a ≤ b) : pct a total ≤ pct b total :=
  Nat.div_le_div_right (Nat.mul_le_mul_right _ h)

theorem pct_le_100 {step total : Nat} (h : step ≤ total) : pct step total ≤ 100 := by
  unfold pct
  rcases Nat.eq_zero_or_pos total with h0 | h0
  · subst h0
    simp
  · calc step * 100 / total ≤ total * 100 / total :=
        Nat.div_le_div_right (Nat.mul_le_mul_right _ h)
    _ = 100 := Nat.mul_div_cancel_left 100 h0

/-- The slot-loop progress invariant: the emitted percentages so far are
non-decreasing and bounded by the percentage of the current step. -/
def good (total : Nat) (c : Core) : Prop :=
  List.Chain' (fun a b => a ≤ b) c.progress ∧ ∀ p ∈ c.progress, p ≤ pct c.step total

theorem mem_of_getLast?_eq {α : Type} :
    ∀ {l : List α} {a : α}, l.getLast? = some a → a ∈ l := by
  intro l
  induction l with
  | nil => intro a h; simp at h
  | cons x t ih =>
    intro a h
    cases t with
    | nil =>
      simp at h
      subst h
      exact List.mem_singleton_self _
    | cons y s =>
      rw [List.getLast?_cons_cons] at h
      exact List.mem_cons_of_mem _ (ih h)

theorem good_step (total : Nat) (c : Core) (d : List (String × List String)) :
    good total c →
    good total { df := c.df, dict := d, step := c.step + 1,
                 progress := c.progress ++ [pct (c.step + 1) total] } := by
  rintro ⟨hch, hb⟩
  constructor
  · rw [List.chain'_append]
    refine ⟨hch, List.chain'_singleton _, ?_⟩
    intro x hx y hy
    simp only [List.head?_cons, Option.mem_def, Option.some.injEq] at hy
    subst hy
    have hx' : x ∈ c.progress := mem_of_getLast?_eq (Option.mem_def.mp hx)
    exact le_trans (hb x hx') (pct_mono total (Nat.le_succ _))
  · intro p hp
    rcases List.mem_append.mp hp with h1 | h2
    · exact le_trans (hb p h1) (pct_mono total (Nat.le_succ _))
    · simp only [List.mem_singleton] at h2
      subst h2
      exact le_rfl

theorem setCol_length {t : Table} {c : String} {vs : List Cell}
    (h : vs.length = t.rows.length) :
    (t.setCol c vs).rows.length = t.rows.length := by
  unfold Table.setCol
  cases hidx : t.colIdx c <;> simp [List.length_zipWith, h]

theorem col_length {t : Table} {c : String} {vs : List Cell}
    (h : t.col c = some vs) : vs.length = t.rows.length := by
  unfold Table.col at h
  rcases Option.map_eq_some'.mp h with ⟨i, _, hv⟩
  rw [← hv]
  exact List.length_map _ _

theorem leftJoin_length {l r : Table} {lk rk : String}
    (h : ∀ key : Cell, r.rows.countP
      (fun rr => cellEq key (rr.getD ((r.colIdx rk).getD 0) Cell.missing)) ≤ 1) :
    (leftJoin l r lk rk).rows.length = l.rows.length := by
  unfold leftJoin
  rw [List.length_flatMap]
  have hone : ∀ row ∈ l.rows,
      (let key := row.getD ((l.colIdx lk).getD 0) Cell.missing
       let ms := r.rows.filter (fun rr =>
         cellEq key (rr.getD ((r.colIdx rk).getD 0) Cell.missing))
       if ms.isEmpty then [row ++ List.replicate r.header.length Cell.missing]
       else ms.map (fun rr => row ++ rr)).length = 1 := by
    intro row _
    set key := row.getD ((l.colIdx lk).getD 0) Cell.missing with hkey
    have hflen : (r.rows.filter (fun rr =>
        cellEq key (rr.getD ((r.colIdx rk).getD 0) Cell.missing))).length ≤ 1 := by
      rw [← List.countP_eq_length_filter]
      exact h key
    cases he : (r.rows.filter (fun rr =>
        cellEq key (rr.getD ((r.colIdx rk).getD 0) Cell.missing))).isEmpty
    · simp only [he]
      rw [if_neg (show ¬(false = true) by decide)]
      rw [List.length_map]
      have hne : (r.rows.filter (fun rr =>
          cellEq key (rr.getD ((r.colIdx rk).getD 0) Cell.missing))) ≠ [] := by
        intro hnil
        rw [hnil] at he
        simp at he
      have h1 : 1 ≤ (r.rows.filter (fun rr =>
          cellEq key (rr.getD ((r.colIdx rk).getD 0) Cell.missing))).length :=
        Nat.succ_le_of_lt (List.length_pos.mpr hne)
      omega
    · simp only [he]
      rw [if_pos trivial]
      rfl
  calc (l.rows.map (fun row =>
      (let key := row.getD ((l.colIdx lk).getD 0) Cell.missing
       let ms := r.rows.filter (fun rr =>
         cellEq key (rr.getD ((r.colIdx rk).getD 0) Cell.missing))
       if ms.isEmpty then [row ++ List.replicate r.header.length Cell.missing]
       else ms.map (fun rr => row ++ rr)).length)).sum
      = (l.rows.map (fun _ => 1)).sum := by
        rw [List.map_congr_left hone]
    _ = l.rows.length := by simp

theorem processRows_cons_ex (label : String) (si mi total : Nat) (r : List Cell)
    (rest : List (List Cell)) (c : Core) :
    ∃ d, processRows label si mi total (r :: rest) c =
      processRows label si mi total rest
        { df := c.df, dict := d, step := c.step + 1,
          progress := c.progress ++ [pct (c.step + 1) total] } := by
  simp only [processRows, List.foldl_cons]
  cases hb : cellNotna (r.getD mi Cell.missing)
  · refine ⟨c.dict, ?_⟩
    congr 1
  · refine ⟨dictAppend c.dict (clean_match_value (cellToStr (r.getD si Cell.missing))) label,
      ?_⟩
    congr 1

theorem processRows_good (label : String) (si mi total : Nat) :
    ∀ (rows : List (List Cell)) (c : Core), good total c →
      (processRows label si mi total rows c).df = c.df ∧
      (processRows label si mi total rows c).step = c.step + rows.length ∧
      good total (processRows label si mi total rows c) := by
  intro rows
  induction rows with
  | nil => intro c hg; exact ⟨rfl, (Nat.add_zero _).symm, hg⟩
  | cons r rest ih =>
    intro c hg
    rcases processRows_cons_ex label si mi total r rest c with ⟨d, hd⟩
    rw [hd]
    have hg2 := good_step total c d hg
    rcases ih _ hg2 with ⟨h1, h2, h3⟩
    refine ⟨h1, ?_, h3⟩
    rw [h2]
    simp only [List.length_cons]
    omega

/-- Index of the configured match column inside a reference table. -/
def slotKeyIdx (cfg : RefConfig) : Nat := (cfg.table.colIdx cfg.matchCol).getD 0

/-- The cleaned join keys a reference slot exposes to the merge: the match
column cells after clean_match_value, as stored by the column
assignment. -/
def slotKeys (cfg : RefConfig) : List Cell :=
  cfg.table.rows.map (fun r =>
    (r.set (slotKeyIdx cfg) (cleanCell (r.getD (slotKeyIdx cfg) Cell.missing))).getD
      (slotKeyIdx cfg) Cell.missing)

/-- No fan-out: every key value occurs at most once among a present slot
join keys, so a statement row matches at most one reference row. -/
def noFanOut : Option RefConfig → Prop
  | none => True
  | some cfg => ∀ key : Cell, (slotKeys cfg).countP (fun kc => cellEq key kc) ≤ 1

/-- The renamed extract table built from a slot inside the join step. -/
def extTable (idx : Nat) (cfg : RefConfig) (rows : List (List Cell)) : Table :=
  { header := cfg.matchCol :: cfg.returnCols.map (refColName idx), rows := rows }

theorem setCol_present_rows {t : Table} {c : String} {vs : List Cell} {i : Nat}
    (h : t.colIdx c = some i) :
    (t.setCol c vs).rows = List.zipWith (fun r v => r.set i v) t.rows vs := by
  rw [setCol_present h]

theorem colIdx_head (c : String) (rest : List String) (rows : List (List Cell)) :
    ({ header := c :: rest, rows := rows } : Table).colIdx c = some 0 := by
  show (c :: rest).findIdx? (fun x => x == c) = some 0
  rw [List.findIdx?_cons, List.findIdx?_succ]
  rw [beq_self_eq_true]
  rw [if_pos rfl]

theorem ext_keys_countP (idx : Nat) (cfg : RefConfig) (refKeyVals : List Cell) (ext0 : Table)
    (h1 : cfg.table.col cfg.matchCol = some refKeyVals)
    (h3 : (cfg.table.setCol cfg.matchCol (refKeyVals.map cleanCell)).select
      (cfg.matchCol :: cfg.returnCols) = some ext0)
    (key : Cell) :
    (extTable idx cfg ext0.rows).rows.countP
      (fun rr => cellEq key (rr.getD
        (((extTable idx cfg ext0.rows).colIdx cfg.matchCol).getD 0) Cell.missing)) =
    (slotKeys cfg).countP (fun kc => cellEq key kc) := by
  obtain ⟨i, hi, hkv⟩ : ∃ i, cfg.table.colIdx cfg.matchCol = some i ∧
      refKeyVals = cfg.table.rows.map (fun r => r.getD i Cell.missing) := by
    unfold Table.col at h1
    rcases Option.map_eq_some'.mp h1 with ⟨j, hj, hv⟩
    exact ⟨j, hj, hv.symm⟩
  have hidx0 : (extTable idx cfg ext0.rows).colIdx cfg.matchCol = some 0 :=
    colIdx_head cfg.matchCol (cfg.returnCols.map (refColName idx)) ext0.rows
  rw [hidx0]
  simp only [Option.getD_some]
  have hrefTidx : (cfg.table.setCol cfg.matchCol (refKeyVals.map cleanCell)).colIdx
      cfg.matchCol = some i := by
    rw [setCol_present hi]
    exact hi
  unfold Table.select at h3
  cases hall : (cfg.matchCol :: cfg.returnCols).all
      (fun cc => (cfg.table.setCol cfg.matchCol (refKeyVals.map cleanCell)).hasCol cc)
  · rw [hall] at h3
    rw [if_neg (show ¬(false = true) by decide)] at h3
    exact absurd h3 (by simp)
  · rw [hall] at h3
    rw [if_pos rfl] at h3
    have hrows : ext0.rows =
        (cfg.table.setCol cfg.matchCol (refKeyVals.map cleanCell)).rows.map (fun r =>
          (cfg.matchCol :: cfg.returnCols).map (fun cc =>
            r.getD (((cfg.table.setCol cfg.matchCol
              (refKeyVals.map cleanCell)).colIdx cc).getD 0) Cell.missing)) :=
      (congrArg Table.rows (Option.some.inj h3)).symm
    rw [show (extTable idx cfg ext0.rows).rows = ext0.rows from rfl]
    rw [hrows]
    rw [List.countP_map]
    have hstep1 : ((cfg.table.setCol cfg.matchCol (refKeyVals.map cleanCell)).rows).countP
        ((fun rr => cellEq key (rr.getD 0 Cell.missing)) ∘ (fun r =>
          (cfg.matchCol :: cfg.returnCols).map (fun cc =>
            r.getD (((cfg.table.setCol cfg.matchCol
              (refKeyVals.map cleanCell)).colIdx cc).getD 0) Cell.missing))) =
        ((cfg.table.setCol cfg.matchCol (refKeyVals.map cleanCell)).rows).countP
          (fun r => cellEq key (r.getD i Cell.missing)) := by
      apply List.countP_congr
      intro r _
      have heq : ((fun rr => cellEq key (rr.getD 0 Cell.missing)) ∘ (fun r =>
          (cfg.matchCol :: cfg.returnCols).map (fun cc =>
            r.getD (((cfg.table.setCol cfg.matchCol
              (refKeyVals.map cleanCell)).colIdx cc).getD 0) Cell.missing))) r =
          cellEq key (r.getD i Cell.missing) := by
        simp only [Function.comp_apply, List.map_cons, List.getD_cons_zero, hrefTidx,
          Option.getD_some]
      rw [heq]
    rw [hstep1]
    rw [setCol_present_rows hi]
    rw [hkv, List.map_map]
    rw [List.zipWith_map_right, List.zipWith_same]
    rw [List.countP_map]
    unfold slotKeys
    rw [List.countP_map]
    unfold slotKeyIdx
    rw [hi]
    rfl

theorem slotBody_good (sm : String) (total idx : Nat) (cfg : RefConfig) (c : Core)
    (hnf : ∀ key : Cell, (slotKeys cfg).countP (fun kc => cellEq key kc) ≤ 1)
    (hg : good total c) :
    (slotBody sm total idx cfg c).1.df.rows.length = c.df.rows.length ∧
    (slotBody sm total idx cfg c).1.step ≤ c.step + c.df.rows.length ∧
    good total (slotBody sm total idx cfg c).1 := by
  unfold slotBody
  rcases h1 : cfg.table.col cfg.matchCol with _ | refKeyVals
  · exact ⟨rfl, Nat.le_add_right _ _, hg⟩
  rcases h2 : c.df.col sm with _ | soaVals
  · exact ⟨rfl, Nat.le_add_right _ _, hg⟩
  have hlen1 : (c.df.setCol sm (soaVals.map cleanCell)).rows.length = c.df.rows.length := by
    apply setCol_length
    rw [List.length_map]
    exact col_length h2
  simp only []
  rcases h3 : (cfg.table.setCol cfg.matchCol (refKeyVals.map cleanCell)).select
      (cfg.matchCol :: cfg.returnCols) with _ | ext0
  · exact ⟨hlen1, Nat.le_add_right _ _, hg⟩
  simp only []
  rw [show ({ header := cfg.matchCol :: cfg.returnCols.map (refColName idx), rows := ext0.rows } : Table) = extTable idx cfg ext0.rows from rfl]
  have hjoin : (leftJoin (c.df.setCol sm (soaVals.map cleanCell))
      (extTable idx cfg ext0.rows) sm cfg.matchCol).rows.length = c.df.rows.length := by
    rw [leftJoin_length]
    · exact hlen1
    · intro key
      rw [ext_keys_countP idx cfg refKeyVals ext0 h1 h3 key]
      exact hnf key
  rcases h4 : cfg.returnCols.head? with _ | r0
  · exact ⟨hjoin, Nat.le_add_right _ _, hg⟩
  simp only []
  rcases h5 : (leftJoin (c.df.setCol sm (soaVals.map cleanCell))
      (extTable idx cfg ext0.rows) sm cfg.matchCol).colIdx (refColName idx r0) with _ | maskIdx
  · exact ⟨hjoin, Nat.le_add_right _ _, hg⟩
  rcases h6 : (leftJoin (c.df.setCol sm (soaVals.map cleanCell))
      (extTable idx cfg ext0.rows) sm cfg.matchCol).colIdx sm with _ | soaIdx
  · exact ⟨hjoin, Nat.le_add_right _ _, hg⟩
  simp only []
  obtain ⟨hprdf, hprstep, hprgood⟩ :=
    processRows_good (slotLabel idx) soaIdx maskIdx total
      (leftJoin (c.df.setCol sm (soaVals.map cleanCell))
        (extTable idx cfg ext0.rows) sm cfg.matchCol).rows
      (Core.mk (leftJoin (c.df.setCol sm (soaVals.map cleanCell))
        (extTable idx cfg ext0.rows) sm cfg.matchCol) c.dict c.step c.progress) hg
  by_cases hpos : 0 < idx
  · rw [if_pos hpos]
    refine ⟨?_, ?_, ?_⟩
    · simp only []
      rw [setCol_length (by rw [List.length_replicate])]
      rw [hprdf]
      exact hjoin
    · simp only []
      rw [hprstep]
      rw [show (Core.mk (leftJoin (c.df.setCol sm (soaVals.map cleanCell))
          (extTable idx cfg ext0.rows) sm cfg.matchCol) c.dict c.step c.progress).step = c.step from rfl]
      rw [hjoin]
    · exact hprgood
  · rw [if_neg hpos]
    refine ⟨?_, ?_, ?_⟩
    · rw [hprdf]
      exact hjoin
    · rw [hprstep]
      rw [show (Core.mk (leftJoin (c.df.setCol sm (soaVals.map cleanCell))
          (extTable idx cfg ext0.rows) sm cfg.matchCol) c.dict c.step c.progress).step = c.step from rfl]
      rw [hjoin]
    · exact hprgood

theorem processSlot_good (sm : String) (total : Nat) (idx : Nat) (cfgOpt : Option RefConfig)
    (st : St) (hnf : noFanOut cfgOpt) (hg : good total st.core) :
    (processSlot sm total idx cfgOpt st).core.df.rows.length = st.core.df.rows.length ∧
    (processSlot sm total idx cfgOpt st).core.step ≤ st.core.step + st.core.df.rows.length ∧
    good total (processSlot sm total idx cfgOpt st).core := by
  rw [processSlot_core]
  cases cfgOpt with
  | none => exact ⟨rfl, Nat.le_add_right _ _, hg⟩
  | some cfg => exact slotBody_good sm total idx cfg st.core hnf hg

theorem slotFold_good (sm : String) (total n : Nat) :
    ∀ (l : List (Option RefConfig)) (i : Nat) (st : St),
      (∀ cfgOpt ∈ l, noFanOut cfgOpt) →
      good total st.core → st.core.df.rows.length = n → st.core.step ≤ i * n →
      good total (slotFold sm total i l st).core ∧
      (slotFold sm total i l st).core.df.rows.length = n ∧
      (slotFold sm total i l st).core.step ≤ (i + l.length) * n := by
  intro l
  induction l with
  | nil =>
    intro i st _ hg hlen hstep
    exact ⟨hg, hlen, by simpa using hstep⟩
  | cons a t ih =>
    intro i st hnf hg hlen hstep
    rw [show slotFold sm total i (a :: t) st =
      slotFold sm total (i + 1) t (processSlot sm total i a st) from rfl]
    obtain ⟨hd1, hd2, hd3⟩ :=
      processSlot_good sm total i a st (hnf a (List.mem_cons_self a t)) hg
    have hlen2 : (processSlot sm total i a st).core.df.rows.length = n := hd1.trans hlen
    have hstep2 : (processSlot sm total i a st).core.step ≤ (i + 1) * n := by
      calc (processSlot sm total i a st).core.step
          ≤ st.core.step + st.core.df.rows.length := hd2
        _ ≤ i * n + n := by rw [hlen]; exact Nat.add_le_add_right hstep n
        _ = (i + 1) * n := by ring
    obtain ⟨hg3, hlen3, hstep3⟩ := ih (i + 1) (processSlot sm total i a st)
      (fun x hx => hnf x (List.mem_cons_of_mem a hx)) hd3 hlen2 hstep2
    refine ⟨hg3, hlen3, ?_⟩
    calc (slotFold sm total (i + 1) t (processSlot sm total i a st)).core.step
        ≤ (i + 1 + t.length) * n := hstep3
      _ = (i + (a :: t).length) * n := by rw [List.length_cons]; ring

theorem getLast?_append_singleton {α : Type} (l : List α) (a : α) :
    (l ++ [a]).getLast? = some a := by
  rw [← List.head?_reverse, List.reverse_append]
  rfl

/-- C7 amended: progress percentages are integers that never exceed 100,
are emitted in non-decreasing order, and end at 100 when a table is
produced - provided no statement key fans out to more than one row in any
present reference slot.  (Fan-out overruns the precomputed step total, as
the counterexample shows.) -/
theorem C7_progress_amended (inp : RunInput)
    (h : ∀ cfgOpt ∈ inp.refConfigs, noFanOut cfgOpt) :
    List.Chain' (fun a b => a ≤ b) (runReco inp).progress ∧
    (∀ p ∈ (runReco inp).progress, p ≤ 100) ∧
    ((runReco inp).table.isSome = true → (runReco inp).progress.getLast? = some 100) := by
  cases hage : agePhase inp with
  | error e =>
    have hrun : runReco inp = abortOutput e := by
      unfold runReco
      rw [hage]
    rw [hrun]
    exact ⟨List.chain'_nil, by simp [abortOutput], by simp [abortOutput]⟩
  | ok df1 =>
    have hrun : runReco inp = afterAge inp df1 := by
      unfold runReco
      rw [hage]
    rw [hrun]
    cases hcol : df1.col inp.soaMatch with
    | none =>
      have h2 : afterAge inp df1 =
          { table := none, statuses := [], log := [], progress := [], flags := [] } := by
        unfold afterAge
        rw [hcol]
      rw [h2]
      exact ⟨List.chain'_nil, by simp, by simp⟩
    | some keyCells0 =>
      have h2 : afterAge inp df1 = runFinish inp
          (slotFold inp.soaMatch (runTotal inp.refConfigs.length df1.rows.length) 0
            inp.refConfigs (initSt df1 keyCells0)) := by
        unfold afterAge
        rw [hcol]
      rw [h2]
      obtain ⟨hgood, hlen, hstep⟩ := slotFold_good inp.soaMatch
        (runTotal inp.refConfigs.length df1.rows.length) df1.rows.length
        inp.refConfigs 0 (initSt df1 keyCells0) h
        ⟨List.chain'_nil, fun p hp => absurd hp (List.not_mem_nil p)⟩ rfl (Nat.zero_le _)
      have hstot : (slotFold inp.soaMatch (runTotal inp.refConfigs.length df1.rows.length) 0
          inp.refConfigs (initSt df1 keyCells0)).core.step ≤
          runTotal inp.refConfigs.length df1.rows.length := by
        rcases Nat.eq_zero_or_pos df1.rows.length with h0 | h0
        · have hstep0 : (slotFold inp.soaMatch
              (runTotal inp.refConfigs.length df1.rows.length) 0
              inp.refConfigs (initSt df1 keyCells0)).core.step ≤ 0 := by
            calc (slotFold inp.soaMatch (runTotal inp.refConfigs.length df1.rows.length) 0
                inp.refConfigs (initSt df1 keyCells0)).core.step
                ≤ (0 + inp.refConfigs.length) * df1.rows.length := hstep
              _ = 0 := by rw [h0]; ring
          exact le_trans hstep0 (Nat.zero_le _)
        · calc (slotFold inp.soaMatch (runTotal inp.refConfigs.length df1.rows.length) 0
              inp.refConfigs (initSt df1 keyCells0)).core.step
              ≤ (0 + inp.refConfigs.length) * df1.rows.length := hstep
            _ = runTotal inp.refConfigs.length df1.rows.length := by
                unfold runTotal
                rw [if_pos h0]
                ring
      have hb100 : ∀ p ∈ (slotFold inp.soaMatch
          (runTotal inp.refConfigs.length df1.rows.length) 0
          inp.refConfigs (initSt df1 keyCells0)).core.progress, p ≤ 100 := by
        intro p hp
        exact le_trans (hgood.2 p hp) (pct_le_100 hstot)
      have hfp : (runFinish inp (slotFold inp.soaMatch
          (runTotal inp.refConfigs.length df1.rows.length) 0
          inp.refConfigs (initSt df1 keyCells0))).progress =
          (slotFold inp.soaMatch (runTotal inp.refConfigs.length df1.rows.length) 0
            inp.refConfigs (initSt df1 keyCells0)).core.progress ++ [100] := rfl
      refine ⟨?_, ?_, ?_⟩
      · rw [hfp, List.chain'_append]
        refine ⟨hgood.1, List.chain'_singleton _, ?_⟩
        intro x hx y hy
        simp only [List.head?_cons, Option.mem_def, Option.some.injEq] at hy
        subst hy
        exact hb100 x (mem_of_getLast?_eq (Option.mem_def.mp hx))
      · rw [hfp]
        intro p hp
        rcases List.mem_append.mp hp with h1 | h1
        · exact hb100 p h1
        · simp only [List.mem_singleton] at h1
          subst h1
          exact le_rfl
      · intro _
        rw [hfp]
        exact getLast?_append_singleton _ _

theorem C7_witness :
    (∀ cfgOpt ∈ (inp10 1).refConfigs, noFanOut cfgOpt) ∧
    (List.Chain' (fun a b => a ≤ b) (runReco (inp10 1)).progress ∧
     (∀ p ∈ (runReco (inp10 1)).progress, p ≤ 100) ∧
     ((runReco (inp10 1)).table.isSome = true →
       (runReco (inp10 1)).progress.getLast? = some 100)) := by
  have hnf : ∀ cfgOpt ∈ (inp10 1).refConfigs, noFanOut cfgOpt := by
    intro cfgOpt hmem
    simp only [inp10, List.mem_cons, List.not_mem_nil, or_false] at hmem
    rcases hmem with hm | hm | hm | hm <;> subst hm
    · intro key
      rw [show slotKeys cfg10 = [Cell.str "7"] from rfl]
      rw [List.countP_cons, List.countP_nil]
      cases hc : cellEq key (Cell.str "7") <;> simp [hc]
    · trivial
    · trivial
    · trivial
  exact ⟨hnf, C7_progress_amended (inp10 1) hnf⟩
